import Mathlib

/-!
Verification of the interruption-tracker time-accounting core.

The Go source is embedded shallowly:
* `time.Time` and `time.Duration` become `Int` (nanoseconds); Go subtraction
  of times is `Int` subtraction.
* Go pointers that may be nil become `Option`.
* Go integer division on possibly-negative `int64` truncates toward zero and
  is rendered as `Int.tdiv`; `Nat` division is used where Go divides
  non-negative lengths.
* Failure (returned `error`) becomes `Except`/`Option`; a nil-pointer
  dereference (a Go panic) is modelled by a dedicated `none`/constructor,
  as noted at the definition concerned.
-/

namespace ITracker

/-- Nanoseconds in one minute, `time.Minute` of the Go standard library. -/
def minuteNS : Int := 60000000000

/-- Nanoseconds in one hour, `time.Hour`. -/
def hourNS : Int := 3600000000000

/-- Nanoseconds in one day, `24 * time.Hour`. -/
def dayNS : Int := 86400000000000

/-- EntryType of models/timeentry.go: the type of a time entry. -/
inductive EntryType where
  | START
  | END
  | INTERRUPTION
  | RETURN
deriving DecidableEq

/-- TimeEntry of models/timeentry.go. `InterruptionTag` is a string type in
Go, so `Tag` is a `String` ("" when unset); `Typ` renders the Go field
`Type` (a Lean keyword). `EndTime` is carried by the struct but never read
by the functions verified here, so it is omitted. -/
structure TimeEntry where
  ID : String
  Typ : EntryType
  StartTime : Int
  Description : String
  Tag : String
deriving DecidableEq

/-- SubSession of models/timeentry.go: a continuous period of work. -/
structure SubSession where
  Start : Option TimeEntry
  End : Option TimeEntry
  Interruptions : List TimeEntry
deriving DecidableEq

/-- Session of models/timeentry.go. `Interruptions` is the legacy flat
mirror kept for backward compatibility. -/
structure Session where
  ID : String
  Start : Option TimeEntry
  End : Option TimeEntry
  SubSessions : List SubSession
  Interruptions : List TimeEntry
deriving DecidableEq

/-- DailySessions of models/timeentry.go: all sessions of one day. -/
structure DailySessions where
  Date : Int
  Sessions : List Session
deriving DecidableEq

/-- The interruption-pair walk shared by both branches of `GetStats`
(models/timeentry.go lines 161-167 and 180-186): entries are taken two at a
time and each completed pair contributes `return.StartTime -
interruption.StartTime`; a trailing entry without a partner contributes
nothing. -/
def pairDuration : List TimeEntry → Int
  | a :: b :: rest => (b.StartTime - a.StartTime) + pairDuration rest
  | _ => 0

/-- Per-sub-session contribution to `GetStats`
(models/timeentry.go lines 146-172): `(work, interruption, count)`.
A sub-session with nil `Start` is skipped; an active sub-session (nil `End`)
uses `now` as provisional end. -/
def SubSession.stats (now : Int) (ss : SubSession) : Int × Int × Nat :=
  match ss.Start with
  | none => (0, 0, 0)
  | some st =>
      let endTime :=
        match ss.End with
        | some e => e.StartTime
        | none => now
      let subSessionDuration := endTime - st.StartTime
      let interruptionDuration := pairDuration ss.Interruptions
      (subSessionDuration - interruptionDuration, interruptionDuration,
        ss.Interruptions.length / 2)

/-- Per-session contribution to `GetStats` (models/timeentry.go lines
143-193): sub-sessions are used when present; otherwise the legacy shape is
used, and only when both `Start` and `End` are present. -/
def Session.stats (now : Int) (s : Session) : Int × Int × Nat :=
  if s.SubSessions.length > 0 then
    s.SubSessions.foldl
      (fun acc ss =>
        let t := SubSession.stats now ss
        (acc.1 + t.1, acc.2.1 + t.2.1, acc.2.2 + t.2.2))
      (0, 0, 0)
  else
    match s.Start, s.End with
    | some st, some en =>
        let sessionDuration := en.StartTime - st.StartTime
        let interruptionDuration := pairDuration s.Interruptions
        (sessionDuration - interruptionDuration, interruptionDuration,
          s.Interruptions.length / 2)
    | _, _ => (0, 0, 0)

/-- DailySessions.GetStats of models/timeentry.go: totals over all
sessions, as the accumulating loop of lines 142-196. -/
def DailySessions.GetStats (now : Int) (ds : DailySessions) : Int × Int × Nat :=
  ds.Sessions.foldl
    (fun acc s =>
      let t := Session.stats now s
      (acc.1 + t.1, acc.2.1 + t.2.1, acc.2.2 + t.2.2))
    (0, 0, 0)

/-- Start time of an optional entry, 0 when absent; used only to state
theorems about sessions whose entries are known to be present. -/
def entryTime : Option TimeEntry → Int
  | some e => e.StartTime
  | none => 0

theorem getStats_foldl_shift (now : Int) (l : List Session) (a : Int × Int × Nat) :
    l.foldl
      (fun acc s =>
        let t := Session.stats now s
        (acc.1 + t.1, acc.2.1 + t.2.1, acc.2.2 + t.2.2)) a =
      (a.1 + (l.map (fun s => (Session.stats now s).1)).sum,
       a.2.1 + (l.map (fun s => (Session.stats now s).2.1)).sum,
       a.2.2 + (l.map (fun s => (Session.stats now s).2.2)).sum) := by
  induction l generalizing a with
  | nil => simp
  | cons s rest ih =>
      simp only [List.foldl_cons, List.map_cons, List.sum_cons]
      rw [ih]
      simp only
      refine Prod.ext ?_ (Prod.ext ?_ ?_) <;> simp <;> ring

theorem getStats_eq_sum (now : Int) (ds : DailySessions) :
    ds.GetStats now =
      ((ds.Sessions.map (fun s => (Session.stats now s).1)).sum,
       (ds.Sessions.map (fun s => (Session.stats now s).2.1)).sum,
       (ds.Sessions.map (fun s => (Session.stats now s).2.2)).sum) := by
  unfold DailySessions.GetStats
  rw [getStats_foldl_shift]
  simp

theorem stats_legacy_completed (now : Int) (s : Session)
    (h0 : s.SubSessions = []) (h1 : s.Start.isSome) (h2 : s.End.isSome) :
    Session.stats now s =
      (entryTime s.End - entryTime s.Start - pairDuration s.Interruptions,
       pairDuration s.Interruptions, s.Interruptions.length / 2) := by
  rcases s with ⟨id, st, en, subs, intr⟩
  cases st with
  | none => simp at h1
  | some a =>
      cases en with
      | none => simp at h2
      | some b =>
          simp only at h0
          subst h0
          simp [Session.stats, entryTime]

theorem pairDuration_append_single : ∀ (l : List TimeEntry) (e : TimeEntry),
    2 ∣ l.length → pairDuration (l ++ [e]) = pairDuration l
  | [], _, _ => by simp [pairDuration]
  | [a], _, h => by simp at h
  | a :: b :: rest, e, h => by
      have hrest : 2 ∣ rest.length := by
        simp only [List.length_cons] at h
        omega
      have ih := pairDuration_append_single rest e hrest
      show b.StartTime - a.StartTime + pairDuration (rest ++ [e]) =
        b.StartTime - a.StartTime + pairDuration rest
      omega

/-- C1: for a DailySessions whose sessions all have the legacy shape (no
sub-sessions) and are completed (start and end present), `GetStats` returns
work = the sum over sessions of (end - start) minus that session's summed
completed-pair spans, interruption = the summed pair spans, and count = the
number of completed pairs; a DailySessions with no sessions yields
`(0, 0, 0)`; and appending a trailing unmatched interruption entry to a
completed session changes none of the three totals. -/
theorem C1_getStats_completed :
    (∀ (now d : Int), DailySessions.GetStats now ⟨d, []⟩ = (0, 0, 0)) ∧
    (∀ (now : Int) (ds : DailySessions),
      (∀ s ∈ ds.Sessions, s.SubSessions = [] ∧ s.Start.isSome ∧ s.End.isSome) →
      ds.GetStats now =
        ((ds.Sessions.map
            (fun s => entryTime s.End - entryTime s.Start - pairDuration s.Interruptions)).sum,
         (ds.Sessions.map (fun s => pairDuration s.Interruptions)).sum,
         (ds.Sessions.map (fun s => s.Interruptions.length / 2)).sum)) ∧
    (∀ (now : Int) (s : Session) (l : List TimeEntry) (e : TimeEntry),
      s.SubSessions = [] → s.Start.isSome → s.End.isSome →
      s.Interruptions = l ++ [e] → 2 ∣ l.length →
      Session.stats now s = Session.stats now { s with Interruptions := l }) ∧
    (∀ (now : Int) (ss : SubSession) (l : List TimeEntry) (e : TimeEntry),
      ss.Interruptions = l ++ [e] → 2 ∣ l.length →
      SubSession.stats now ss = SubSession.stats now { ss with Interruptions := l }) := by
  refine ⟨?_, ?_, ?_, ?_⟩
  · intro now d
    simp [DailySessions.GetStats]
  · intro now ds h
    rw [getStats_eq_sum]
    have e1 : ∀ s ∈ ds.Sessions,
        (Session.stats now s).1 =
          entryTime s.End - entryTime s.Start - pairDuration s.Interruptions := by
      intro s hs
      rw [stats_legacy_completed now s (h s hs).1 (h s hs).2.1 (h s hs).2.2]
    have e2 : ∀ s ∈ ds.Sessions,
        (Session.stats now s).2.1 = pairDuration s.Interruptions := by
      intro s hs
      rw [stats_legacy_completed now s (h s hs).1 (h s hs).2.1 (h s hs).2.2]
    have e3 : ∀ s ∈ ds.Sessions,
        (Session.stats now s).2.2 = s.Interruptions.length / 2 := by
      intro s hs
      rw [stats_legacy_completed now s (h s hs).1 (h s hs).2.1 (h s hs).2.2]
    rw [List.map_congr_left e1, List.map_congr_left e2, List.map_congr_left e3]
  · intro now s l e h0 h1 h2 hil hev
    have hl : ({ s with Interruptions := l } : Session).SubSessions = [] := h0
    rw [stats_legacy_completed now s h0 h1 h2,
        stats_legacy_completed now _ hl h1 h2]
    simp only [hil]
    rw [pairDuration_append_single l e hev]
    have : (l ++ [e]).length / 2 = l.length / 2 := by
      rcases hev with ⟨k, hk⟩
      simp [List.length_append, hk]
      omega
    rw [this]
  · intro now ss l e hil hev
    rcases ss with ⟨st, en, intr⟩
    simp only at hil
    subst hil
    cases st with
    | none => simp [SubSession.stats]
    | some a =>
        simp only [SubSession.stats]
        rw [pairDuration_append_single l e hev]
        have : (l ++ [e]).length / 2 = l.length / 2 := by
          rcases hev with ⟨k, hk⟩
          simp [List.length_append, hk]
          omega
        rw [this]

/-- C1 witness: the theorem applied at a concrete day. Two completed legacy
sessions: one of span 2h with a single 30m pair, one of span 1h with no
interruptions; totals are (2h30m - 30m, 30m, 1). -/
theorem C1_witness :
    (∀ s ∈ (⟨0, [⟨"a", some ⟨"1", EntryType.START, 0, "", ""⟩,
                      some ⟨"2", EntryType.END, 2 * hourNS, "", ""⟩, [],
                      [⟨"3", EntryType.INTERRUPTION, hourNS, "", "call"⟩,
                       ⟨"4", EntryType.RETURN, hourNS + 30 * minuteNS, "", ""⟩]⟩,
                  ⟨"b", some ⟨"5", EntryType.START, 3 * hourNS, "", ""⟩,
                      some ⟨"6", EntryType.END, 4 * hourNS, "", ""⟩, [], []⟩]⟩ :
              DailySessions).Sessions,
        s.SubSessions = [] ∧ s.Start.isSome ∧ s.End.isSome) ∧
    DailySessions.GetStats (5 * hourNS)
        ⟨0, [⟨"a", some ⟨"1", EntryType.START, 0, "", ""⟩,
                some ⟨"2", EntryType.END, 2 * hourNS, "", ""⟩, [],
                [⟨"3", EntryType.INTERRUPTION, hourNS, "", "call"⟩,
                 ⟨"4", EntryType.RETURN, hourNS + 30 * minuteNS, "", ""⟩]⟩,
             ⟨"b", some ⟨"5", EntryType.START, 3 * hourNS, "", ""⟩,
                some ⟨"6", EntryType.END, 4 * hourNS, "", ""⟩, [], []⟩]⟩ =
      (150 * minuteNS, 30 * minuteNS, 1) := by
  constructor
  · intro s hs
    simp only [List.mem_cons, List.mem_singleton] at hs
    rcases hs with h | h | h
    · subst h; exact ⟨rfl, rfl, rfl⟩
    · subst h; exact ⟨rfl, rfl, rfl⟩
    · cases h
  · have := C1_getStats_completed.2.1 (5 * hourNS)
      ⟨0, [⟨"a", some ⟨"1", EntryType.START, 0, "", ""⟩,
              some ⟨"2", EntryType.END, 2 * hourNS, "", ""⟩, [],
              [⟨"3", EntryType.INTERRUPTION, hourNS, "", "call"⟩,
               ⟨"4", EntryType.RETURN, hourNS + 30 * minuteNS, "", ""⟩]⟩,
           ⟨"b", some ⟨"5", EntryType.START, 3 * hourNS, "", ""⟩,
              some ⟨"6", EntryType.END, 4 * hourNS, "", ""⟩, [], []⟩]⟩
      (by
        intro s hs
        simp only [List.mem_cons, List.mem_singleton] at hs
        rcases hs with h | h | h
        · subst h; exact ⟨rfl, rfl, rfl⟩
        · subst h; exact ⟨rfl, rfl, rfl⟩
        · cases h)
    rw [this]
    simp [entryTime, pairDuration, hourNS, minuteNS]

/-- C2 counterexample: a legacy-shape session (no sub-sessions) with start
at time 0 and no end entry. The claim predicts that `GetStats` at `now =
100` uses 100 as provisional end and reports work 100; the code's legacy
branch (models/timeentry.go line 176) requires `session.End != nil` and
skips the session entirely, so `GetStats` returns `(0, 0, 0)`. -/
theorem C2_counterexample :
    DailySessions.GetStats 100
        ⟨0, [⟨"a", some ⟨"1", EntryType.START, 0, "", ""⟩, none, [], []⟩]⟩ =
      (0, 0, 0) ∧
    DailySessions.GetStats 100
        ⟨0, [⟨"a", some ⟨"1", EntryType.START, 0, "", ""⟩, none, [], []⟩]⟩ ≠
      (100 - 0 - pairDuration [], 0, 0) := by
  constructor
  · rfl
  · intro h
    simp [DailySessions.GetStats, Session.stats, List.foldl, pairDuration,
      Prod.ext_iff] at h

/-- C2 amended: an active legacy-shape session (no sub-sessions, end entry
absent) is skipped by `GetStats` and contributes nothing to any of the
three totals; only an active sub-session uses the current time as
provisional end, contributing `(now - start) - completed pair spans`. -/
theorem C2_active_legacy_skipped :
    (∀ (now : Int) (s : Session), s.SubSessions = [] → s.End = none →
      Session.stats now s = (0, 0, 0)) ∧
    (∀ (now : Int) (ss : SubSession) (st : TimeEntry),
      ss.Start = some st → ss.End = none →
      SubSession.stats now ss =
        (now - st.StartTime - pairDuration ss.Interruptions,
         pairDuration ss.Interruptions, ss.Interruptions.length / 2)) := by
  constructor
  · intro now s h0 h2
    rcases s with ⟨id, st, en, subs, intr⟩
    simp only at h0 h2
    subst h0; subst h2
    cases st <;> simp [Session.stats]
  · intro now ss st h1 h2
    rcases ss with ⟨sst, sen, intr⟩
    simp only at h1 h2
    subst h1; subst h2
    simp [SubSession.stats]

/-- C2 amended witness: at `now = 100`, a legacy active session started at
time 0 yields `(0, 0, 0)`, while an active sub-session started at time 0
with no interruptions yields `(100, 0, 0)`. -/
theorem C2_witness :
    Session.stats 100
        ⟨"a", some ⟨"1", EntryType.START, 0, "", ""⟩, none, [], []⟩ = (0, 0, 0) ∧
    SubSession.stats 100 ⟨some ⟨"1", EntryType.START, 0, "", ""⟩, none, []⟩ =
      (100 - 0 - pairDuration [], pairDuration [], ([] : List TimeEntry).length / 2) :=
  ⟨C2_active_legacy_skipped.1 100
      ⟨"a", some ⟨"1", EntryType.START, 0, "", ""⟩, none, [], []⟩ rfl rfl,
   C2_active_legacy_skipped.2 100
      ⟨some ⟨"1", EntryType.START, 0, "", ""⟩, none, []⟩
      ⟨"1", EntryType.START, 0, "", ""⟩ rfl rfl⟩

/-- InterruptionTagStats of models/timeentry.go. -/
structure InterruptionTagStats where
  Tag : String
  Count : Nat
  TotalTime : Int
  RecoveryTime : Int
  TotalWithRecovery : Int
  AverageTime : Int
deriving DecidableEq

/-- GetInterruptionTags of models/timeentry.go: the four known tags. -/
def GetInterruptionTags : List String := ["call", "meeting", "spouse", "other"]

/-- The initial statsMap of GetInterruptionTagStats (models/timeentry.go
lines 211-216): one zero entry per known tag. The Go map is unordered; it
is rendered as an association list in `GetInterruptionTags` order. -/
def initStatsMap : List (String × InterruptionTagStats) :=
  GetInterruptionTags.map (fun t => (t, ⟨t, 0, 0, 0, 0, 0⟩))

/-- The per-pair update of GetInterruptionTagStats (models/timeentry.go
lines 233-249): `stats := statsMap[tag]` followed by field updates through
the pointer. If `tag` has no entry, the Go lookup yields nil and
`stats.Count++` panics; that panic is `none` here. -/
def applyPair (m : List (String × InterruptionTagStats)) (tag : String)
    (span : Int) : Option (List (String × InterruptionTagStats)) :=
  match m with
  | [] => none
  | (k, st) :: rest =>
      if k = tag then
        some ((k, { st with
                    Count := st.Count + 1,
                    TotalTime := st.TotalTime + span,
                    RecoveryTime := st.RecoveryTime + 10 * minuteNS,
                    TotalWithRecovery := st.TotalWithRecovery + span + 10 * minuteNS }) :: rest)
      else
        (applyPair rest tag span).map (fun r => (k, st) :: r)

/-- The two-at-a-time walk of one session's legacy interruption list
(models/timeentry.go lines 220-251): each completed pair updates the map
under the interruption's tag, "" falling back to "other"; a trailing
unmatched interruption is ignored. -/
def tagPairWalk (m : List (String × InterruptionTagStats)) :
    List TimeEntry → Option (List (String × InterruptionTagStats))
  | a :: b :: rest =>
      match applyPair m (if a.Tag = "" then "other" else a.Tag)
          (b.StartTime - a.StartTime) with
      | none => none
      | some m2 => tagPairWalk m2 rest
  | _ => some m

/-- The session loop of GetInterruptionTagStats (models/timeentry.go
lines 219-252). -/
def tagSessionsWalk (m : List (String × InterruptionTagStats)) :
    List Session → Option (List (String × InterruptionTagStats))
  | [] => some m
  | s :: rest =>
      match tagPairWalk m s.Interruptions with
      | none => none
      | some m2 => tagSessionsWalk m2 rest

/-- DailySessions.GetInterruptionTagStats of models/timeentry.go (lines
209-264): after the walk, entries with positive count get `AverageTime =
TotalTime / Count` (Go `int64` division truncates, hence `Int.tdiv`).
`none` models the nil-map-entry panic on an unknown tag. -/
def DailySessions.GetInterruptionTagStats (ds : DailySessions) :
    Option (List InterruptionTagStats) :=
  (tagSessionsWalk initStatsMap ds.Sessions).map (fun m =>
    m.map (fun kv =>
      if kv.2.Count > 0 then
        { kv.2 with AverageTime := kv.2.TotalTime.tdiv (kv.2.Count : Int) }
      else kv.2))

/-- C3: the code contradicts the claim (and its own comment, "Get or create
stats for this tag") on a custom tag. First conjunct: a single completed
pair carrying the custom tag "lunch" makes `GetInterruptionTagStats` hit a
nil map entry and panic (`none`), instead of producing a stats entry for
"lunch". Second conjunct: on known tags the claimed fields do hold — a
completed 30-minute "call" pair yields Count 1, TotalTime 30m, RecoveryTime
10m, TotalWithRecovery 40m, AverageTime 30m, with zero-count entries kept
for the other known tags, and an empty tag is attributed to "other". -/
theorem C3_custom_tag_panics :
    DailySessions.GetInterruptionTagStats
        ⟨0, [⟨"a", some ⟨"1", EntryType.START, 0, "", ""⟩,
                some ⟨"2", EntryType.END, 2 * hourNS, "", ""⟩, [],
                [⟨"3", EntryType.INTERRUPTION, hourNS, "", "lunch"⟩,
                 ⟨"4", EntryType.RETURN, hourNS + 30 * minuteNS, "", ""⟩]⟩]⟩ =
      none ∧
    DailySessions.GetInterruptionTagStats
        ⟨0, [⟨"a", some ⟨"1", EntryType.START, 0, "", ""⟩,
                some ⟨"2", EntryType.END, 2 * hourNS, "", ""⟩, [],
                [⟨"3", EntryType.INTERRUPTION, hourNS, "", "call"⟩,
                 ⟨"4", EntryType.RETURN, hourNS + 30 * minuteNS, "", ""⟩,
                 ⟨"5", EntryType.INTERRUPTION, 90 * minuteNS, "", ""⟩,
                 ⟨"6", EntryType.RETURN, 100 * minuteNS, "", ""⟩]⟩]⟩ =
      some
        [⟨"call", 1, 30 * minuteNS, 10 * minuteNS, 40 * minuteNS, 30 * minuteNS⟩,
         ⟨"meeting", 0, 0, 0, 0, 0⟩,
         ⟨"spouse", 0, 0, 0, 0, 0⟩,
         ⟨"other", 1, 10 * minuteNS, 10 * minuteNS, 20 * minuteNS, 10 * minuteNS⟩] := by
  constructor
  · rfl
  · rfl

/-- DetailedStats of models/stats.go. The Go maps are rendered as
association lists; the derived `ProductivityScore` field is the return
value of `CalculateProductivityScore` below (the Go method also stores it
on the struct, a write this pure rendering drops). -/
structure DetailedStats where
  StartDate : Int
  EndDate : Int
  TotalWorkDuration : Int
  TotalSessions : Nat
  LongestSession : Int
  AverageSessionTime : Int
  TotalInterruptions : Nat
  InterruptionsByTag : List (String × Nat)
  InterruptionDurationByTag : List (String × Int)
  DailyWorkDurations : List (Int × Int)
  HourlyProductivity : List (Int × Int)
deriving DecidableEq

/-- DetailedStats.CalculateProductivityScore of models/stats.go (lines
389-428), with Go float64 arithmetic modelled by exact rationals (0.5 and
0.2 are 1/2 and 1/5). Division by zero is 0 in ℚ; in Go float it yields
NaN/Inf, which for `TotalSessions = 0` likewise fails the `> 0.5` penalty
test only when `TotalInterruptions = 0`, the only shape `GetDetailedStats`
produces with zero sessions. -/
def DetailedStats.CalculateProductivityScore (s : DetailedStats) : ℚ :=
  if s.TotalWorkDuration = 0 then 0
  else
    let totalInterruptionTime := (s.InterruptionDurationByTag.map (fun kv => kv.2)).sum
    let recoveryTime : Int := (s.TotalInterruptions : Int) * (10 * minuteNS)
    let totalImpactedTime := totalInterruptionTime + recoveryTime
    let totalTime := s.TotalWorkDuration + totalImpactedTime
    let workRatio : ℚ := (s.TotalWorkDuration : ℚ) / (totalTime : ℚ)
    let score := workRatio * 100
    let interruptionRatio : ℚ := (s.TotalInterruptions : ℚ) / (s.TotalSessions : ℚ)
    let score2 :=
      if interruptionRatio > 1/2 then
        score * (1 - (interruptionRatio - 1/2) * (1/5))
      else score
    if score2 > 100 then 100 else score2

/-- C4 counterexample: stats with one completed session, ten completed
interruptions of zero recorded duration, and one hour of work. The base
score is 37.5, the interruptions-per-session ratio is 10, the penalty
multiplier is 1 - (10 - 1/2)/5 = -9/10, and the returned score is -135/4 =
-33.75, outside the claimed interval [0, 100]: the code caps the score at
100 but never floors it at 0. -/
theorem C4_counterexample :
    DetailedStats.CalculateProductivityScore
        ⟨0, 0, 60 * minuteNS, 1, 0, 0, 10, [], [], [], []⟩ = -135/4 ∧
    DetailedStats.CalculateProductivityScore
        ⟨0, 0, 60 * minuteNS, 1, 0, 0, 10, [], [], [], []⟩ < 0 := by
  constructor
  · norm_num [DetailedStats.CalculateProductivityScore, minuteNS]
  · norm_num [DetailedStats.CalculateProductivityScore, minuteNS]

/-- C4 amended: when `TotalWorkDuration` is zero the score is exactly 0
with no division performed; otherwise the score equals
`work / (work + totalInterruptionTime + 10min * totalInterruptions) * 100`,
multiplied by `1 - (ratio - 1/2) * 1/5` when the interruptions-per-session
ratio exceeds 1/2, then capped above at 100. The result is always at most
100, but it is not clamped below and can be negative (whenever the ratio
exceeds 11/2). -/
theorem C4_score_formula (s : DetailedStats) :
    (s.TotalWorkDuration = 0 → s.CalculateProductivityScore = 0) ∧
    s.CalculateProductivityScore ≤ 100 ∧
    (s.TotalWorkDuration ≠ 0 →
      s.CalculateProductivityScore =
        min 100
          (if ((s.TotalInterruptions : ℚ) / (s.TotalSessions : ℚ)) > 1/2 then
            (s.TotalWorkDuration : ℚ) /
                (((s.TotalWorkDuration +
                  ((s.InterruptionDurationByTag.map (fun kv => kv.2)).sum +
                    (s.TotalInterruptions : Int) * (10 * minuteNS))) : Int) : ℚ) * 100 *
              (1 - ((s.TotalInterruptions : ℚ) / (s.TotalSessions : ℚ) - 1/2) * (1/5))
          else
            (s.TotalWorkDuration : ℚ) /
                (((s.TotalWorkDuration +
                  ((s.InterruptionDurationByTag.map (fun kv => kv.2)).sum +
                    (s.TotalInterruptions : Int) * (10 * minuteNS))) : Int) : ℚ) * 100)) := by
  unfold DetailedStats.CalculateProductivityScore
  by_cases h0 : s.TotalWorkDuration = 0
  · refine ⟨fun _ => by simp [h0], by simp [h0], fun h => absurd h0 h⟩
  · simp only [h0, if_false]
    refine ⟨fun h => h.elim, ?_, fun _ => ?_⟩
    · split_ifs <;> linarith
    · split_ifs with h1 h2 h3
      · exact (min_eq_left (le_of_lt h2)).symm
      · exact (min_eq_right (le_of_not_lt h2)).symm
      · exact (min_eq_left (le_of_lt h3)).symm
      · exact (min_eq_right (le_of_not_lt h3)).symm

/-- C4 amended witness: the formula evaluated at one hour of work, one
session and one 30-minute meeting interruption: 60/(60+30+10) = 0.6, score
60, ratio 1 > 1/2 so the multiplier is 1 - 1/10 = 9/10, giving 54; and the
zero-work case gives exactly 0. -/
theorem C4_witness :
    DetailedStats.CalculateProductivityScore
        ⟨0, 0, 0, 1, 0, 0, 0, [], [], [], []⟩ = 0 ∧
    DetailedStats.CalculateProductivityScore
        ⟨0, 0, 60 * minuteNS, 1, 0, 0, 1, [("meeting", 1)],
          [("meeting", 30 * minuteNS)], [], []⟩ = 54 := by
  constructor
  · exact (C4_score_formula ⟨0, 0, 0, 1, 0, 0, 0, [], [], [], []⟩).1 rfl
  · have h := (C4_score_formula
      ⟨0, 0, 60 * minuteNS, 1, 0, 0, 1, [("meeting", 1)],
        [("meeting", 30 * minuteNS)], [], []⟩).2.2 (by norm_num [minuteNS])
    rw [h]
    norm_num [minuteNS]

/-- The synthetic gap interruption entry of Storage.MergeSessions
(storage.go lines 601-602): `NewInterruptionEntry` with tag "other", its
start time overwritten with the earlier session's end time; the fresh ID
comes from the current wall clock. -/
def gapInterruptEntry (now t : Int) : TimeEntry :=
  ⟨toString now, EntryType.INTERRUPTION, t,
   "Auto-created gap between merged sessions", "other"⟩

/-- The synthetic gap return entry of Storage.MergeSessions (storage.go
lines 604-605): `NewTimeEntry(EntryTypeReturn, "")` with its start time
overwritten with the later session's start time. -/
def gapReturnEntry (now t : Int) : TimeEntry :=
  ⟨toString now, EntryType.RETURN, t, "", ""⟩

/-- Result of a storage mutation: a successful save of the new
DailySessions, a returned Go error, or a nil-pointer panic. -/
inductive MergeResult where
  | ok (ds : DailySessions)
  | err (msg : String)
  | panic
deriving DecidableEq

/-- The merged session built by Storage.MergeSessions (storage.go lines
584-613) from the chronologically ordered pair: session1's start,
session2's end, concatenated sub-session and legacy interruption lists,
and one synthetic gap pair appended only when session1 ended strictly
before session2 started. -/
def mergedSession (now : Int) (s1 s2 : Session) : Session :=
  let merged : Session :=
    { ID := "merged_" ++ toString now,
      Start := s1.Start,
      End := s2.End,
      SubSessions := s1.SubSessions ++ s2.SubSessions,
      Interruptions := s1.Interruptions ++ s2.Interruptions }
  match s1.End, s2.Start with
  | some e1, some st2 =>
      if e1.StartTime < st2.StartTime then
        { merged with
          Interruptions := merged.Interruptions ++
            [gapInterruptEntry now e1.StartTime,
             gapReturnEntry now st2.StartTime] }
      else merged
  | _, _ => merged

/-- Storage.MergeSessions of storage.go (lines 561-629), on an
already-loaded DailySessions (the load and the final save are the
surrounding I/O). Indices are validated first (Go also checks `< 0`, which
`Nat` makes vacuous); the pair is swapped so that session1 starts no later
than session2 (strict `After` comparison, dereferencing both `Start`
pointers — nil would panic); the merged session takes session1's start,
session2's end, and the concatenated interruption and sub-session lists;
one synthetic interruption/return pair is appended only when session1's
end exists and strictly precedes session2's start; both originals are
removed and the merged session appended. -/
def Storage.MergeSessions (now : Int) (ds : DailySessions) (i j : Nat) :
    MergeResult :=
  match ds.Sessions[i]?, ds.Sessions[j]? with
  | some si, some sj =>
      if i = j then .err "invalid session indices"
      else
        match si.Start, sj.Start with
        | some sti, some stj =>
            let p := if stj.StartTime < sti.StartTime then (j, i, sj, si)
                     else (i, j, si, sj)
            let i1 := p.1
            let i2 := p.2.1
            let s1 := p.2.2.1
            let s2 := p.2.2.2
            let merged := mergedSession now s1 s2
            let rest :=
              if i1 < i2 then (ds.Sessions.eraseIdx i2).eraseIdx i1
              else (ds.Sessions.eraseIdx i1).eraseIdx i2
            .ok ⟨ds.Date, rest ++ [merged]⟩
        | _, _ => .panic
  | _, _ => .err "invalid session indices"

/-- The invariant of the data model (spec section 3): an interruption
sequence is (interruption, return) pairs, except possibly one trailing
unmatched interruption. -/
def validSeq : List TimeEntry → Bool
  | [] => true
  | [a] => a.Typ = EntryType.INTERRUPTION
  | a :: b :: rest =>
      a.Typ = EntryType.INTERRUPTION && b.Typ = EntryType.RETURN && validSeq rest

/-- A fully paired interruption sequence: (interruption, return) pairs with
no trailing unmatched entry. -/
def isPairedSeq : List TimeEntry → Bool
  | [] => true
  | [_] => false
  | a :: b :: rest =>
      a.Typ = EntryType.INTERRUPTION && b.Typ = EntryType.RETURN && isPairedSeq rest

/-- TimerUI.interruptSession of ui/session.go (lines 90-114) acting on the
current interruption list: the entry (an interruption, from
`showInterruptionTagSelection` / `recordInterruption`) is appended unless
an interruption is already open (`len > 0 && len % 2 != 0`), in which case
the list is unchanged and the operation refused. -/
def interruptOp (l : List TimeEntry) (e : TimeEntry) : List TimeEntry :=
  if l.length > 0 ∧ l.length % 2 ≠ 0 then l else l ++ [e]

/-- TimerUI.backFromInterruption of ui/session.go (lines 154-193) acting on
the current interruption list: the return entry is appended unless no
interruption is open (`len == 0 || len % 2 == 0`), in which case the list
is unchanged and the operation refused. -/
def returnOp (l : List TimeEntry) (e : TimeEntry) : List TimeEntry :=
  if l.length = 0 ∨ l.length % 2 = 0 then l else l ++ [e]

theorem isPairedSeq_append : ∀ (a b : List TimeEntry),
    isPairedSeq a = true → isPairedSeq (a ++ b) = isPairedSeq b
  | [], _, _ => rfl
  | [_], _, h => by simp [isPairedSeq] at h
  | x :: y :: rest, b, h => by
      simp only [isPairedSeq, Bool.and_eq_true] at h
      have ih := isPairedSeq_append rest b h.2
      simp only [List.cons_append, isPairedSeq, ih, h.1.1, h.1.2]
      simp
      exact ih

theorem validSeq_of_paired : ∀ l : List TimeEntry,
    isPairedSeq l = true → validSeq l = true
  | [], _ => rfl
  | [_], h => by simp [isPairedSeq] at h
  | x :: y :: rest, h => by
      simp only [isPairedSeq, Bool.and_eq_true] at h
      have ih := validSeq_of_paired rest h.2
      simp only [validSeq, ih, h.1.1, h.1.2]
      simp

theorem validSeq_even_paired : ∀ l : List TimeEntry,
    validSeq l = true → l.length % 2 = 0 → isPairedSeq l = true
  | [], _, _ => rfl
  | [_], _, hl => by simp at hl
  | x :: y :: rest, h, hl => by
      simp only [validSeq, Bool.and_eq_true] at h
      simp only [List.length_cons] at hl
      have ih := validSeq_even_paired rest h.2 (by omega)
      simp only [isPairedSeq, ih, h.1.1, h.1.2]
      simp

theorem validSeq_append_interruption : ∀ l : List TimeEntry, ∀ e : TimeEntry,
    isPairedSeq l = true → e.Typ = EntryType.INTERRUPTION →
    validSeq (l ++ [e]) = true
  | [], e, _, he => by simp [validSeq, he]
  | [_], _, h, _ => by simp [isPairedSeq] at h
  | x :: y :: rest, e, h, he => by
      simp only [isPairedSeq, Bool.and_eq_true] at h
      have ih := validSeq_append_interruption rest e h.2 he
      simp only [List.cons_append, validSeq, ih, h.1.1, h.1.2]
      simp
      exact ih

theorem validSeq_odd_append_return : ∀ l : List TimeEntry, ∀ e : TimeEntry,
    validSeq l = true → l.length % 2 = 1 → e.Typ = EntryType.RETURN →
    isPairedSeq (l ++ [e]) = true
  | [], _, _, hl, _ => by simp at hl
  | [a], e, h, _, he => by
      simp only [validSeq, decide_eq_true_eq] at h
      simp [isPairedSeq, h, he]
  | x :: y :: rest, e, h, hl, he => by
      simp only [validSeq, Bool.and_eq_true] at h
      simp only [List.length_cons] at hl
      have ih := validSeq_odd_append_return rest e h.2 (by omega) he
      simp only [List.cons_append, isPairedSeq, ih, h.1.1, h.1.2]
      simp
      exact ih

theorem mergedSession_interruptions_valid (now : Int) (s1 s2 : Session)
    (h1 : isPairedSeq s1.Interruptions = true)
    (h2 : isPairedSeq s2.Interruptions = true) :
    validSeq (mergedSession now s1 s2).Interruptions = true := by
  have hbase : isPairedSeq (s1.Interruptions ++ s2.Interruptions) = true := by
    rw [isPairedSeq_append _ _ h1]
    exact h2
  unfold mergedSession
  rcases he1 : s1.End with _ | e1 <;> rcases hst2 : s2.Start with _ | st2 <;>
    simp only
  · exact validSeq_of_paired _ hbase
  · exact validSeq_of_paired _ hbase
  · exact validSeq_of_paired _ hbase
  · by_cases hlt : e1.StartTime < st2.StartTime
    · simp only [hlt, if_true]
      apply validSeq_of_paired
      rw [isPairedSeq_append _ _ hbase]
      rfl
    · simp only [hlt, if_false]
      exact validSeq_of_paired _ hbase

/-- C5 counterexample: both inputs satisfy the invariant — session "s1"
(completed, no interruptions) trivially, session "s2" (active, one open
interruption at time 25) as a lone trailing unmatched interruption — yet
because s1 ended (time 10) strictly before s2 started (time 20),
MergeSessions appends a synthetic (interruption, return) pair after s2's
open interruption, and the merged list (open interruption, synthetic
interruption, synthetic return) violates the invariant: its first pair is
(interruption, interruption). -/
theorem C5_counterexample :
    validSeq ([] : List TimeEntry) = true ∧
    validSeq [⟨"4", EntryType.INTERRUPTION, 25, "", "call"⟩] = true ∧
    Storage.MergeSessions 999
        ⟨0, [⟨"s1", some ⟨"1", EntryType.START, 0, "", ""⟩,
                some ⟨"2", EntryType.END, 10, "", ""⟩, [], []⟩,
             ⟨"s2", some ⟨"3", EntryType.START, 20, "", ""⟩, none, [],
                [⟨"4", EntryType.INTERRUPTION, 25, "", "call"⟩]⟩]⟩ 0 1 =
      MergeResult.ok
        ⟨0, [⟨"merged_999", some ⟨"1", EntryType.START, 0, "", ""⟩, none, [],
              [⟨"4", EntryType.INTERRUPTION, 25, "", "call"⟩,
               gapInterruptEntry 999 10, gapReturnEntry 999 20]⟩]⟩ ∧
    validSeq
        [⟨"4", EntryType.INTERRUPTION, 25, "", "call"⟩,
         gapInterruptEntry 999 10, gapReturnEntry 999 20] = false := by
  refine ⟨rfl, rfl, rfl, rfl⟩

/-- C5 amended: interrupting and returning preserve the invariant —
interrupting is refused (list unchanged) while an interruption is open,
returning is refused while none is open, and the appended entry keeps the
sequence valid otherwise. Merging preserves the invariant provided both
input sessions' interruption sequences are fully paired (no trailing
unmatched interruption): every session of the merged day then satisfies
the invariant. A trailing unmatched interruption in a merge input can
break the invariant (see the counterexample), so the merge conjunct
requires full pairing, which is what completed sessions have. -/
theorem C5_invariant_preservation :
    (∀ (l : List TimeEntry) (e : TimeEntry), validSeq l = true →
      e.Typ = EntryType.INTERRUPTION → validSeq (interruptOp l e) = true) ∧
    (∀ (l : List TimeEntry) (e : TimeEntry), validSeq l = true →
      e.Typ = EntryType.RETURN → validSeq (returnOp l e) = true) ∧
    (∀ (l : List TimeEntry) (e : TimeEntry), l.length % 2 = 1 →
      interruptOp l e = l) ∧
    (∀ (l : List TimeEntry) (e : TimeEntry), l.length % 2 = 0 →
      returnOp l e = l) ∧
    (∀ (now : Int) (ds : DailySessions) (i j : Nat) (ds' : DailySessions),
      (∀ s ∈ ds.Sessions, isPairedSeq s.Interruptions = true) →
      Storage.MergeSessions now ds i j = MergeResult.ok ds' →
      ∀ s ∈ ds'.Sessions, validSeq s.Interruptions = true) := by
  refine ⟨?_, ?_, ?_, ?_, ?_⟩
  · intro l e hv he
    unfold interruptOp
    split_ifs with hg
    · exact hv
    · have heven : l.length % 2 = 0 := by
        rcases l with _ | ⟨x, l⟩
        · rfl
        · push_neg at hg
          exact hg (by simp)
      exact validSeq_append_interruption l e (validSeq_even_paired l hv heven) he
  · intro l e hv he
    unfold returnOp
    split_ifs with hg
    · exact hv
    · push_neg at hg
      have hodd : l.length % 2 = 1 := by omega
      exact validSeq_of_paired _ (validSeq_odd_append_return l e hv hodd he)
  · intro l e h
    unfold interruptOp
    rw [if_pos ⟨by omega, by omega⟩]
  · intro l e h
    unfold returnOp
    have : l.length = 0 ∨ l.length % 2 = 0 := Or.inr h
    rw [if_pos this]
  · intro now ds i j ds' hpair hmerge
    unfold Storage.MergeSessions at hmerge
    rcases hi : ds.Sessions[i]? with _ | si <;> rw [hi] at hmerge
    · cases hmerge
    rcases hj : ds.Sessions[j]? with _ | sj <;> rw [hj] at hmerge
    · cases hmerge
    simp only at hmerge
    have hsi : si ∈ ds.Sessions := by
      rcases List.getElem?_eq_some_iff.mp hi with ⟨h, rfl⟩
      exact List.getElem_mem h
    have hsj : sj ∈ ds.Sessions := by
      rcases List.getElem?_eq_some_iff.mp hj with ⟨h, rfl⟩
      exact List.getElem_mem h
    by_cases hij : i = j
    · simp only [hij, if_pos] at hmerge
      cases hmerge
    rw [if_neg hij] at hmerge
    rcases hsta : si.Start with _ | sti <;> rw [hsta] at hmerge
    · cases hmerge
    rcases hstb : sj.Start with _ | stj <;> rw [hstb] at hmerge
    · cases hmerge
    simp only at hmerge
    by_cases hsw : stj.StartTime < sti.StartTime <;>
      simp only [hsw, if_true, if_false] at hmerge <;>
      (injection hmerge with hmeq) <;> subst hmeq <;>
      intro s hs <;>
      simp only [List.mem_append, List.mem_singleton] at hs <;>
      rcases hs with hrest | rfl
    · have hmem : s ∈ ds.Sessions := by
        split at hrest <;>
          exact (List.eraseIdx_sublist _ _).subset
            ((List.eraseIdx_sublist _ _).subset hrest)
      exact validSeq_of_paired _ (hpair s hmem)
    · exact mergedSession_interruptions_valid now sj si (hpair _ hsj) (hpair _ hsi)
    · have hmem : s ∈ ds.Sessions := by
        split at hrest <;>
          exact (List.eraseIdx_sublist _ _).subset
            ((List.eraseIdx_sublist _ _).subset hrest)
      exact validSeq_of_paired _ (hpair s hmem)
    · exact mergedSession_interruptions_valid now si sj (hpair _ hsi) (hpair _ hsj)

/-- C5 witness: the amended theorem applied at concrete inputs — an
interruption appended to an empty list, a return closing an open
interruption, both refusals, and a merge of two completed
interruption-free sessions whose merged session (with its synthetic gap
pair) satisfies the invariant. -/
theorem C5_witness :
    validSeq (interruptOp [] ⟨"i", EntryType.INTERRUPTION, 5, "", "call"⟩) = true ∧
    validSeq (returnOp [⟨"i", EntryType.INTERRUPTION, 5, "", "call"⟩]
        ⟨"r", EntryType.RETURN, 6, "", ""⟩) = true ∧
    interruptOp [⟨"i", EntryType.INTERRUPTION, 5, "", "call"⟩]
        ⟨"i2", EntryType.INTERRUPTION, 7, "", ""⟩ =
      [⟨"i", EntryType.INTERRUPTION, 5, "", "call"⟩] ∧
    returnOp [] ⟨"r", EntryType.RETURN, 6, "", ""⟩ = [] ∧
    validSeq (⟨"merged_7", some ⟨"1", EntryType.START, 0, "", ""⟩,
        some ⟨"4", EntryType.END, 30, "", ""⟩, [],
        [gapInterruptEntry 7 10, gapReturnEntry 7 20]⟩ : Session).Interruptions =
      true :=
  ⟨C5_invariant_preservation.1 [] ⟨"i", EntryType.INTERRUPTION, 5, "", "call"⟩ rfl rfl,
   C5_invariant_preservation.2.1 [⟨"i", EntryType.INTERRUPTION, 5, "", "call"⟩]
     ⟨"r", EntryType.RETURN, 6, "", ""⟩ rfl rfl,
   C5_invariant_preservation.2.2.1 [⟨"i", EntryType.INTERRUPTION, 5, "", "call"⟩]
     ⟨"i2", EntryType.INTERRUPTION, 7, "", ""⟩ rfl,
   C5_invariant_preservation.2.2.2.1 [] ⟨"r", EntryType.RETURN, 6, "", ""⟩ rfl,
   C5_invariant_preservation.2.2.2.2 7
     ⟨0, [⟨"s1", some ⟨"1", EntryType.START, 0, "", ""⟩,
            some ⟨"2", EntryType.END, 10, "", ""⟩, [], []⟩,
          ⟨"s2", some ⟨"3", EntryType.START, 20, "", ""⟩,
            some ⟨"4", EntryType.END, 30, "", ""⟩, [], []⟩]⟩ 0 1
     ⟨0, [⟨"merged_7", some ⟨"1", EntryType.START, 0, "", ""⟩,
            some ⟨"4", EntryType.END, 30, "", ""⟩, [],
            [gapInterruptEntry 7 10, gapReturnEntry 7 20]⟩]⟩
     (by decide) rfl
     ⟨"merged_7", some ⟨"1", EntryType.START, 0, "", ""⟩,
        some ⟨"4", EntryType.END, 30, "", ""⟩, [],
        [gapInterruptEntry 7 10, gapReturnEntry 7 20]⟩
     (by decide)⟩

/-- C8: merging two same-day sessions at valid distinct indices (with
start entries present — Go dereferences both) orders the pair by start
time into (a, b) with a starting no later than b, and produces a merged
session whose start is a's, end is b's, sub-sessions are a's then b's, and
interruptions are a's then b's — followed by exactly one synthetic
(interruption, return) pair spanning from a's end time to b's start time
if and only if a's end exists and strictly precedes b's start; otherwise
no synthetic entries are appended. -/
theorem C8_merge_gap_pair (now : Int) (ds : DailySessions) (i j : Nat)
    (si sj a b : Session) (sti stj : TimeEntry)
    (hi : ds.Sessions[i]? = some si) (hj : ds.Sessions[j]? = some sj)
    (hij : i ≠ j) (hsta : si.Start = some sti) (hstb : sj.Start = some stj)
    (ha : a = if stj.StartTime < sti.StartTime then sj else si)
    (hb : b = if stj.StartTime < sti.StartTime then si else sj) :
    ∃ (rest : List Session) (m : Session),
      Storage.MergeSessions now ds i j = MergeResult.ok ⟨ds.Date, rest ++ [m]⟩ ∧
      m.Start = a.Start ∧ m.End = b.End ∧
      m.SubSessions = a.SubSessions ++ b.SubSessions ∧
      entryTime a.Start ≤ entryTime b.Start ∧
      ((∃ e1, a.End = some e1 ∧ e1.StartTime < entryTime b.Start) →
        ∃ gi gr,
          m.Interruptions = a.Interruptions ++ b.Interruptions ++ [gi, gr] ∧
          gi.Typ = EntryType.INTERRUPTION ∧ gi.StartTime = entryTime a.End ∧
          gr.Typ = EntryType.RETURN ∧ gr.StartTime = entryTime b.Start) ∧
      ((¬ ∃ e1, a.End = some e1 ∧ e1.StartTime < entryTime b.Start) →
        m.Interruptions = a.Interruptions ++ b.Interruptions) := by
  have hb1 : ∀ s1 s2 : Session, ∀ st2 : TimeEntry, s2.Start = some st2 →
      (∃ e1, s1.End = some e1 ∧ e1.StartTime < entryTime s2.Start) →
      ∃ gi gr,
        (mergedSession now s1 s2).Interruptions =
          s1.Interruptions ++ s2.Interruptions ++ [gi, gr] ∧
        gi.Typ = EntryType.INTERRUPTION ∧ gi.StartTime = entryTime s1.End ∧
        gr.Typ = EntryType.RETURN ∧ gr.StartTime = entryTime s2.Start := by
    intro s1 s2 st2 hst2 ⟨e1, he1, hlt⟩
    refine ⟨gapInterruptEntry now e1.StartTime, gapReturnEntry now st2.StartTime,
      ?_, rfl, ?_, rfl, ?_⟩
    · simp only [mergedSession, he1, hst2]
      rw [if_pos (by rw [hst2] at hlt; exact hlt)]
    · rw [he1]; rfl
    · rw [hst2]; rfl
  have hb2 : ∀ s1 s2 : Session, ∀ st2 : TimeEntry, s2.Start = some st2 →
      (¬ ∃ e1, s1.End = some e1 ∧ e1.StartTime < entryTime s2.Start) →
      (mergedSession now s1 s2).Interruptions =
        s1.Interruptions ++ s2.Interruptions := by
    intro s1 s2 st2 hst2 hno
    rcases he1 : s1.End with _ | e1
    · simp only [mergedSession, he1, hst2]
    · have hnlt : ¬ e1.StartTime < st2.StartTime := by
        intro hlt
        exact hno ⟨e1, he1, by rw [hst2]; exact hlt⟩
      simp only [mergedSession, he1, hst2]
      rw [if_neg hnlt]
  have hms : ∀ s1 s2 : Session, (mergedSession now s1 s2).Start = s1.Start := by
    intro s1 s2
    unfold mergedSession
    rcases s1.End with _ | e1 <;> rcases s2.Start with _ | st2 <;> simp only
    split_ifs <;> rfl
  have hme : ∀ s1 s2 : Session, (mergedSession now s1 s2).End = s2.End := by
    intro s1 s2
    unfold mergedSession
    rcases s1.End with _ | e1 <;> rcases s2.Start with _ | st2 <;> simp only
    split_ifs <;> rfl
  have hmss : ∀ s1 s2 : Session,
      (mergedSession now s1 s2).SubSessions = s1.SubSessions ++ s2.SubSessions := by
    intro s1 s2
    unfold mergedSession
    rcases s1.End with _ | e1 <;> rcases s2.Start with _ | st2 <;> simp only
    split_ifs <;> rfl
  have hcompute : Storage.MergeSessions now ds i j =
      MergeResult.ok ⟨ds.Date,
        (if (if stj.StartTime < sti.StartTime then (j, i, sj, si)
             else (i, j, si, sj)).1 <
            (if stj.StartTime < sti.StartTime then (j, i, sj, si)
             else (i, j, si, sj)).2.1 then
          (ds.Sessions.eraseIdx
            (if stj.StartTime < sti.StartTime then (j, i, sj, si)
             else (i, j, si, sj)).2.1).eraseIdx
            (if stj.StartTime < sti.StartTime then (j, i, sj, si)
             else (i, j, si, sj)).1
         else
          (ds.Sessions.eraseIdx
            (if stj.StartTime < sti.StartTime then (j, i, sj, si)
             else (i, j, si, sj)).1).eraseIdx
            (if stj.StartTime < sti.StartTime then (j, i, sj, si)
             else (i, j, si, sj)).2.1) ++
        [mergedSession now
          (if stj.StartTime < sti.StartTime then (j, i, sj, si)
           else (i, j, si, sj)).2.2.1
          (if stj.StartTime < sti.StartTime then (j, i, sj, si)
           else (i, j, si, sj)).2.2.2]⟩ := by
    unfold Storage.MergeSessions
    rw [hi, hj]
    simp only
    rw [if_neg hij, hsta, hstb]
  by_cases hsw : stj.StartTime < sti.StartTime
  · rw [if_pos hsw] at ha hb
    rw [ha, hb]
    rw [if_pos hsw] at hcompute
    simp only at hcompute
    refine ⟨_, mergedSession now sj si, hcompute, hms sj si, hme sj si, hmss sj si,
      ?_, hb1 sj si sti hsta, hb2 sj si sti hsta⟩
    rw [hstb, hsta]
    exact le_of_lt hsw
  · rw [if_neg hsw] at ha hb
    rw [ha, hb]
    rw [if_neg hsw] at hcompute
    simp only at hcompute
    refine ⟨_, mergedSession now si sj, hcompute, hms si sj, hme si sj, hmss si sj,
      ?_, hb1 si sj stj hstb, hb2 si sj stj hstb⟩
    rw [hstb, hsta]
    exact not_lt.mp hsw

/-- C8 witness: the theorem applied to two concrete completed sessions,
the first (start 100, end 200) preceding the second (start 300, end 400),
so the gap branch applies. -/
theorem C8_witness :
    ∃ (rest : List Session) (m : Session),
      Storage.MergeSessions 11
          ⟨0, [⟨"sA", some ⟨"1", EntryType.START, 100, "", ""⟩,
                  some ⟨"2", EntryType.END, 200, "", ""⟩, [], []⟩,
               ⟨"sB", some ⟨"3", EntryType.START, 300, "", ""⟩,
                  some ⟨"4", EntryType.END, 400, "", ""⟩, [], []⟩]⟩ 0 1 =
        MergeResult.ok ⟨0, rest ++ [m]⟩ ∧
      m.Start = (⟨"sA", some ⟨"1", EntryType.START, 100, "", ""⟩,
          some ⟨"2", EntryType.END, 200, "", ""⟩, [], []⟩ : Session).Start ∧
      m.End = (⟨"sB", some ⟨"3", EntryType.START, 300, "", ""⟩,
          some ⟨"4", EntryType.END, 400, "", ""⟩, [], []⟩ : Session).End ∧
      m.SubSessions =
        (⟨"sA", some ⟨"1", EntryType.START, 100, "", ""⟩,
          some ⟨"2", EntryType.END, 200, "", ""⟩, [], []⟩ : Session).SubSessions ++
        (⟨"sB", some ⟨"3", EntryType.START, 300, "", ""⟩,
          some ⟨"4", EntryType.END, 400, "", ""⟩, [], []⟩ : Session).SubSessions ∧
      entryTime (⟨"sA", some ⟨"1", EntryType.START, 100, "", ""⟩,
          some ⟨"2", EntryType.END, 200, "", ""⟩, [], []⟩ : Session).Start ≤
        entryTime (⟨"sB", some ⟨"3", EntryType.START, 300, "", ""⟩,
          some ⟨"4", EntryType.END, 400, "", ""⟩, [], []⟩ : Session).Start ∧
      ((∃ e1, (⟨"sA", some ⟨"1", EntryType.START, 100, "", ""⟩,
            some ⟨"2", EntryType.END, 200, "", ""⟩, [], []⟩ : Session).End = some e1 ∧
          e1.StartTime <
            entryTime (⟨"sB", some ⟨"3", EntryType.START, 300, "", ""⟩,
              some ⟨"4", EntryType.END, 400, "", ""⟩, [], []⟩ : Session).Start) →
        ∃ gi gr,
          m.Interruptions =
            (⟨"sA", some ⟨"1", EntryType.START, 100, "", ""⟩,
              some ⟨"2", EntryType.END, 200, "", ""⟩, [], []⟩ : Session).Interruptions ++
            (⟨"sB", some ⟨"3", EntryType.START, 300, "", ""⟩,
              some ⟨"4", EntryType.END, 400, "", ""⟩, [], []⟩ : Session).Interruptions ++
            [gi, gr] ∧
          gi.Typ = EntryType.INTERRUPTION ∧
          gi.StartTime = entryTime (⟨"sA", some ⟨"1", EntryType.START, 100, "", ""⟩,
            some ⟨"2", EntryType.END, 200, "", ""⟩, [], []⟩ : Session).End ∧
          gr.Typ = EntryType.RETURN ∧
          gr.StartTime = entryTime (⟨"sB", some ⟨"3", EntryType.START, 300, "", ""⟩,
            some ⟨"4", EntryType.END, 400, "", ""⟩, [], []⟩ : Session).Start) ∧
      ((¬ ∃ e1, (⟨"sA", some ⟨"1", EntryType.START, 100, "", ""⟩,
            some ⟨"2", EntryType.END, 200, "", ""⟩, [], []⟩ : Session).End = some e1 ∧
          e1.StartTime <
            entryTime (⟨"sB", some ⟨"3", EntryType.START, 300, "", ""⟩,
              some ⟨"4", EntryType.END, 400, "", ""⟩, [], []⟩ : Session).Start) →
        m.Interruptions =
          (⟨"sA", some ⟨"1", EntryType.START, 100, "", ""⟩,
            some ⟨"2", EntryType.END, 200, "", ""⟩, [], []⟩ : Session).Interruptions ++
          (⟨"sB", some ⟨"3", EntryType.START, 300, "", ""⟩,
            some ⟨"4", EntryType.END, 400, "", ""⟩, [], []⟩ : Session).Interruptions) :=
  C8_merge_gap_pair 11
    ⟨0, [⟨"sA", some ⟨"1", EntryType.START, 100, "", ""⟩,
            some ⟨"2", EntryType.END, 200, "", ""⟩, [], []⟩,
         ⟨"sB", some ⟨"3", EntryType.START, 300, "", ""⟩,
            some ⟨"4", EntryType.END, 400, "", ""⟩, [], []⟩]⟩ 0 1
    ⟨"sA", some ⟨"1", EntryType.START, 100, "", ""⟩,
      some ⟨"2", EntryType.END, 200, "", ""⟩, [], []⟩
    ⟨"sB", some ⟨"3", EntryType.START, 300, "", ""⟩,
      some ⟨"4", EntryType.END, 400, "", ""⟩, [], []⟩
    ⟨"sA", some ⟨"1", EntryType.START, 100, "", ""⟩,
      some ⟨"2", EntryType.END, 200, "", ""⟩, [], []⟩
    ⟨"sB", some ⟨"3", EntryType.START, 300, "", ""⟩,
      some ⟨"4", EntryType.END, 400, "", ""⟩, [], []⟩
    ⟨"1", EntryType.START, 100, "", ""⟩ ⟨"3", EntryType.START, 300, "", ""⟩
    rfl rfl (by decide) rfl rfl (by decide) (by decide)

/-- The encryption-relevant state of Storage (storage.go lines 20-27):
the flag and the derived 32-byte key; bytes are `Nat` here. -/
structure Storage where
  encryptionEnabled : Bool
  encryptionKey : List Nat
deriving DecidableEq

/-- Storage.encrypt of storage.go (lines 97-127). The AES-GCM primitive is
a parameter `sealFn : key → nonce → plaintext → ciphertext` (the Go cipher
object), and the freshly drawn 12-byte random nonce is the `nonce`
argument; the function prepends the nonce to the sealed ciphertext.
With encryption disabled the data passes through. -/
def Storage.encrypt (sealFn : List Nat → List Nat → List Nat → List Nat)
    (s : Storage) (nonce data : List Nat) : Except String (List Nat) :=
  if !s.encryptionEnabled then .ok data
  else .ok (nonce ++ sealFn s.encryptionKey nonce data)

/-- Storage.decrypt of storage.go (lines 130-160). `aeadOpen` is the
authenticated-open of the AES-GCM primitive, returning `none` on
authentication failure. Payloads shorter than 13 bytes (nonce + 1) are
rejected; the first 12 bytes are the nonce and the remainder the
ciphertext. -/
def Storage.decrypt (aeadOpen : List Nat → List Nat → List Nat → Option (List Nat))
    (s : Storage) (data : List Nat) : Except String (List Nat) :=
  if !s.encryptionEnabled then .ok data
  else if data.length < 13 then .error "invalid encrypted data: too short"
  else
    match aeadOpen s.encryptionKey (data.take 12) (data.drop 12) with
    | some plaintext => .ok plaintext
    | none => .error "failed to decrypt data"

/-- C6: with encryption enabled, for a non-empty payload and a 12-byte
nonce, given that the AEAD primitive round-trips this sealing
(`aeadOpen key nonce (sealFn key nonce data) = some data`), produces at
least one ciphertext byte, and rejects the sealing under any different
key, the storage wrapper satisfies: decrypt ∘ encrypt is the identity on
the payload; any input shorter than 13 bytes is rejected with an error;
and decrypting with a storage keyed differently fails authentication and
returns an error. -/
theorem C6_encrypt_decrypt_roundtrip
    (sealFn : List Nat → List Nat → List Nat → List Nat)
    (aeadOpen : List Nat → List Nat → List Nat → Option (List Nat))
    (key key2 nonce data : List Nat)
    (hnonce : nonce.length = 12) (hdata : data ≠ [])
    (hcorrect : aeadOpen key nonce (sealFn key nonce data) = some data)
    (hct : 1 ≤ (sealFn key nonce data).length)
    (hwrong : key2 ≠ key → aeadOpen key2 nonce (sealFn key nonce data) = none) :
    (∀ ct, Storage.encrypt sealFn ⟨true, key⟩ nonce data = .ok ct →
      Storage.decrypt aeadOpen ⟨true, key⟩ ct = .ok data) ∧
    (∀ d : List Nat, d.length < 13 →
      ∃ msg, Storage.decrypt aeadOpen ⟨true, key⟩ d = .error msg) ∧
    (key2 ≠ key → ∀ ct, Storage.encrypt sealFn ⟨true, key⟩ nonce data = .ok ct →
      ∃ msg, Storage.decrypt aeadOpen ⟨true, key2⟩ ct = .error msg) := by
  have hlen : (nonce ++ sealFn key nonce data).length = 12 + (sealFn key nonce data).length := by
    rw [List.length_append, hnonce]
  have htake : (nonce ++ sealFn key nonce data).take 12 = nonce :=
    List.take_left' hnonce
  have hdrop : (nonce ++ sealFn key nonce data).drop 12 = sealFn key nonce data :=
    List.drop_left' hnonce
  refine ⟨?_, ?_, ?_⟩
  · intro ct hct'
    simp only [Storage.encrypt, Bool.not_true, Bool.false_eq_true, if_false] at hct'
    injection hct' with hcteq
    subst hcteq
    simp only [Storage.decrypt, Bool.not_true, Bool.false_eq_true, if_false]
    rw [if_neg (by omega), htake, hdrop, hcorrect]
  · intro d hd
    exact ⟨"invalid encrypted data: too short", by
      simp only [Storage.decrypt, Bool.not_true, Bool.false_eq_true, if_false]
      rw [if_pos hd]⟩
  · intro hk ct hct'
    simp only [Storage.encrypt, Bool.not_true, Bool.false_eq_true, if_false] at hct'
    injection hct' with hcteq
    subst hcteq
    refine ⟨"failed to decrypt data", ?_⟩
    simp only [Storage.decrypt, Bool.not_true, Bool.false_eq_true, if_false]
    rw [if_neg (by omega), htake, hdrop, hwrong hk]

/-- C6 witness: the theorem applied to a toy AEAD (sealFn prepends the
key-length-tagged key; open checks and strips it), key [1], wrong key
[2], an all-zero 12-byte nonce and payload [5]; all cipher-side
hypotheses hold by computation. -/
theorem C6_witness :
    Storage.decrypt
        (fun k _ c => if c.take (k.length + 1) = k.length :: k then
          some (c.drop (k.length + 1)) else none)
        ⟨true, [1]⟩ (List.replicate 12 0 ++ [1, 1, 5]) = .ok [5] ∧
    (∃ msg, Storage.decrypt
        (fun k _ c => if c.take (k.length + 1) = k.length :: k then
          some (c.drop (k.length + 1)) else none)
        ⟨true, [1]⟩ [0, 0, 0] = .error msg) ∧
    (∃ msg, Storage.decrypt
        (fun k _ c => if c.take (k.length + 1) = k.length :: k then
          some (c.drop (k.length + 1)) else none)
        ⟨true, [2]⟩ (List.replicate 12 0 ++ [1, 1, 5]) = .error msg) := by
  obtain ⟨h1, h2, h3⟩ := C6_encrypt_decrypt_roundtrip
    (fun k _ m => (k.length :: k) ++ m)
    (fun k _ c => if c.take (k.length + 1) = k.length :: k then
      some (c.drop (k.length + 1)) else none)
    [1] [2] (List.replicate 12 0) [5]
    (by decide) (by decide) (by decide) (by decide) (fun _ => by decide)
  exact ⟨h1 (List.replicate 12 0 ++ [1, 1, 5]) rfl,
    h2 [0, 0, 0] (by decide),
    h3 (by decide) (List.replicate 12 0 ++ [1, 1, 5]) rfl⟩

/-- The calendar-day file key of Storage.getFilePath (storage.go lines
83-86): the file name is determined by the date's calendar day, so two
times of the same day share one key; days are numbered by flooring. -/
def dayKey (z : Int) : Int := z / dayNS

/-- Go `date.Truncate(24 * time.Hour)`: rounding the time down to a
multiple of 24h since the zero time (which is itself a midnight). -/
def truncDay (z : Int) : Int := dayNS * (z / dayNS)

/-- Storage.LoadDailySessions of storage.go (lines 229-286). The
filesystem is `fs` (one optional byte blob per day key, `none` when the
day file does not exist); the read/decrypt/schema-parse/migrate pipeline
of lines 241-285 is abstracted as `parse`, since only the missing-file
branch (lines 233-239) is at issue here: it returns an empty DailySessions
carrying the date truncated to its day boundary, and no error. -/
def Storage.LoadDailySessions (fs : Int → Option (List Nat))
    (parse : List Nat → Option DailySessions) (date : Int) :
    Except String DailySessions :=
  match fs (dayKey date) with
  | none => .ok ⟨truncDay date, []⟩
  | some data =>
      match parse data with
      | some ds => .ok ds
      | none => .error "failed to unmarshal sessions"

/-- C9: when the day file for a date does not exist, LoadDailySessions
returns no error and an empty DailySessions whose date is the given date
truncated to the day boundary (a multiple of 24h, at most the date, less
than one day before it). -/
theorem C9_load_missing_day (fs : Int → Option (List Nat))
    (parse : List Nat → Option DailySessions) (date : Int)
    (h : fs (dayKey date) = none) :
    Storage.LoadDailySessions fs parse date = .ok ⟨truncDay date, []⟩ ∧
    dayNS ∣ truncDay date ∧ truncDay date ≤ date ∧ date - truncDay date < dayNS := by
  refine ⟨?_, Dvd.intro _ rfl, ?_, ?_⟩
  · unfold Storage.LoadDailySessions
    rw [h]
  · simp only [truncDay, dayNS]
    omega
  · simp only [truncDay, dayNS]
    omega

/-- C9 witness: an empty filesystem and an arbitrary afternoon timestamp
on day 14 (in nanoseconds since the epoch). -/
theorem C9_witness :
    Storage.LoadDailySessions (fun _ => none) (fun _ => none) 1234567890123456 =
      .ok ⟨truncDay 1234567890123456, []⟩ ∧
    dayNS ∣ truncDay 1234567890123456 ∧
    truncDay 1234567890123456 ≤ 1234567890123456 ∧
    1234567890123456 - truncDay 1234567890123456 < dayNS :=
  C9_load_missing_day (fun _ => none) (fun _ => none) 1234567890123456 rfl

/-! Calendar arithmetic. Go resolves "month", "quarter" and "year" ranges
through time.Date / time.Time.Year / .Month / .AddDate; at day granularity
these are exactly the proleptic-Gregorian civil-date conversions below
(Howard Hinnant's branchless algorithms, which Go's time package is
equivalent to on whole days). `/` and `%` are Lean's Euclidean (floor-like
for positive divisors) operations; all quantities are day counts since
1970-01-01. -/

/-- Day count since the epoch to a civil (year, month, day) triple. -/
def civilFromDays (z : Int) : Int × Int × Int :=
  let n := z + 719468
  let era := n / 146097
  let doe := n - 146097 * era
  let yoe := (doe - doe / 1460 + doe / 36524 - doe / 146096) / 365
  let doy := doe - (365 * yoe + yoe / 4 - yoe / 100)
  let mp := (5 * doy + 2) / 153
  let d := doy - (153 * mp + 2) / 5 + 1
  let m := if mp < 10 then mp + 3 else mp - 9
  (yoe + era * 400 + (if m ≤ 2 then 1 else 0), m, d)

/-- Civil (year, month, day) back to a day count since the epoch. -/
def daysFromCivil (y m d : Int) : Int :=
  let y2 := y - (if m ≤ 2 then 1 else 0)
  let era := y2 / 400
  let yoe := y2 - 400 * era
  let mp := if 3 ≤ m then m - 3 else m + 9
  let doy := (153 * mp + 2) / 5 + d - 1
  let doe := 365 * yoe + yoe / 4 - yoe / 100 + doy
  era * 146097 + doe - 719468

set_option maxHeartbeats 4000000 in
theorem cruxZ (doe A B C Y Q4 Q100 : Int)
    (h0 : 0 ≤ doe) (h1 : doe < 146097)
    (hA : 1460*A ≤ doe ∧ doe < 1460*A + 1460)
    (hB : 36524*B ≤ doe ∧ doe < 36524*B + 36524)
    (hC : 146096*C ≤ doe ∧ doe < 146096*C + 146096)
    (hY : 365*Y ≤ doe - A + B - C ∧ doe - A + B - C < 365*Y + 365)
    (hQ4 : 4*Q4 ≤ Y ∧ Y < 4*Q4 + 4)
    (hQ100 : 100*Q100 ≤ Y ∧ Y < 100*Q100 + 100) :
    365*Y + Q4 - Q100 ≤ doe ∧ doe - (365*Y + Q4 - Q100) ≤ 365 ∧ 0 ≤ Y ∧ Y ≤ 399 := by
  have hA0 : 0 ≤ A := by omega
  have hA100 : A ≤ 100 := by omega
  interval_cases A <;>
    first
      | omega
      | (have hB0 : 0 ≤ B := by omega
         have hB4 : B ≤ 4 := by omega
         interval_cases B <;> omega)

set_option maxHeartbeats 4000000 in
theorem roundtripAux (z n era doe A B C Y Q4 Q100 doy mp E5 m d y : Int)
    (hn : n = z + 719468) (hera : era = n / 146097) (hdoe : doe = n - 146097 * era)
    (hA : A = doe / 1460) (hB : B = doe / 36524) (hC : C = doe / 146096)
    (hY : Y = (doe - A + B - C) / 365)
    (hQ4 : Q4 = Y / 4) (hQ100 : Q100 = Y / 100)
    (hdoy : doy = doe - (365 * Y + Q4 - Q100))
    (hmp : mp = (5 * doy + 2) / 153)
    (hE5 : E5 = (153 * mp + 2) / 5)
    (hm : m = if mp < 10 then mp + 3 else mp - 9)
    (hd : d = doy - E5 + 1)
    (hy : y = Y + era * 400 + (if m ≤ 2 then 1 else 0)) :
    daysFromCivil y m d = z ∧ 1 ≤ m ∧ m ≤ 12 ∧ 1 ≤ d ∧ d ≤ 31 ∧
    daysFromCivil y m 1 = z - (d - 1) := by
  have hcrux := cruxZ doe A B C Y Q4 Q100 (by omega) (by omega)
    ⟨by omega, by omega⟩ ⟨by omega, by omega⟩ ⟨by omega, by omega⟩
    ⟨by omega, by omega⟩ ⟨by omega, by omega⟩ ⟨by omega, by omega⟩
  have hdoy0 : 0 ≤ doy := by omega
  have hdoy365 : doy ≤ 365 := by omega
  have hmp0 : 0 ≤ mp := by omega
  have hmp11 : mp ≤ 11 := by omega
  have hE5le : 5 * E5 ≤ 153 * mp + 2 := by omega
  simp only [daysFromCivil]
  by_cases h10 : mp < 10
  · have hm3 : m = mp + 3 := by rw [hm, if_pos h10]
    subst hm3
    rw [if_neg (by omega : ¬ mp + 3 ≤ 2)] at hy ⊢
    rw [if_pos (by omega : 3 ≤ mp + 3)]
    have e1 : (y - 0) / 400 = era := by omega
    rw [e1]
    have e2 : y - 0 - 400 * era = Y := by omega
    rw [e2]
    have e3 : mp + 3 - 3 = mp := by omega
    rw [e3]
    refine ⟨by omega, by omega, by omega, by omega, by omega, by omega⟩
  · have hm9 : m = mp - 9 := by rw [hm, if_neg h10]
    subst hm9
    rw [if_pos (by omega : mp - 9 ≤ 2)] at hy ⊢
    rw [if_neg (by omega : ¬ 3 ≤ mp - 9)]
    have e1 : (y - 1) / 400 = era := by omega
    rw [e1]
    have e2 : y - 1 - 400 * era = Y := by omega
    rw [e2]
    have e3 : mp - 9 + 9 = mp := by omega
    rw [e3]
    refine ⟨by omega, by omega, by omega, by omega, by omega, by omega⟩

theorem civil_roundtrip (z : Int) :
    daysFromCivil (civilFromDays z).1 (civilFromDays z).2.1 (civilFromDays z).2.2 = z ∧
    1 ≤ (civilFromDays z).2.1 ∧ (civilFromDays z).2.1 ≤ 12 ∧
    1 ≤ (civilFromDays z).2.2 ∧ (civilFromDays z).2.2 ≤ 31 ∧
    daysFromCivil (civilFromDays z).1 (civilFromDays z).2.1 1 =
      z - ((civilFromDays z).2.2 - 1) := by
  exact roundtripAux z _ _ _ _ _ _ _ _ _ _ _ _ _ _ _
    rfl rfl rfl rfl rfl rfl rfl rfl rfl rfl rfl rfl rfl rfl rfl

set_option maxHeartbeats 4000000 in
theorem cruxZ3 (doe A B C Y S4 S100 : Int)
    (h0 : 0 ≤ doe) (h1 : doe ≤ 146095)
    (hA : 1460*A ≤ doe ∧ doe < 1460*A + 1460)
    (hB : 36524*B ≤ doe ∧ doe < 36524*B + 36524)
    (hC : 146096*C ≤ doe ∧ doe < 146096*C + 146096)
    (hY : 365*Y ≤ doe - A + B - C ∧ doe - A + B - C < 365*Y + 365)
    (hS4 : 4*S4 ≤ Y + 1 ∧ Y + 1 < 4*S4 + 4)
    (hS100 : 100*S100 ≤ Y + 1 ∧ Y + 1 < 100*S100 + 100) :
    doe < 365*(Y + 1) + S4 - S100 := by
  have hA0 : 0 ≤ A := by omega
  have hA100 : A ≤ 100 := by omega
  interval_cases A <;>
    first
      | omega
      | (have hB0 : 0 ≤ B := by omega
         have hB4 : B ≤ 4 := by omega
         interval_cases B <;> omega)

theorem cruxTriLt (yoe doy doe Y R4 R100 S4 S100 : Int)
    (hdoy : 0 ≤ doy)
    (hR4 : 4*R4 ≤ yoe ∧ yoe < 4*R4 + 4)
    (hR100 : 100*R100 ≤ yoe ∧ yoe < 100*R100 + 100)
    (hS4 : 4*S4 ≤ Y + 1 ∧ Y + 1 < 4*S4 + 4)
    (hS100 : 100*S100 ≤ Y + 1 ∧ Y + 1 < 100*S100 + 100)
    (hdoe : doe = 365*yoe + R4 - R100 + doy)
    (h3 : doe < 365*(Y + 1) + S4 - S100)
    (hlt : Y < yoe) : False := by
  have h1 : Y + 1 ≤ yoe := by omega
  have h2 : S4 ≤ R4 := by omega
  have h5 : S100 ≤ R100 := by omega
  omega

theorem cruxTriGt (yoe doy doe Y R4 R100 Q4 Q100 : Int)
    (hdoy : doy ≤ 337)
    (hR4 : 4*R4 ≤ yoe ∧ yoe < 4*R4 + 4)
    (hR100 : 100*R100 ≤ yoe ∧ yoe < 100*R100 + 100)
    (hQ4 : 4*Q4 ≤ Y ∧ Y < 4*Q4 + 4)
    (hQ100 : 100*Q100 ≤ Y ∧ Y < 100*Q100 + 100)
    (hyoe0 : 0 ≤ yoe) (hY399 : Y ≤ 399)
    (hdoe : doe = 365*yoe + R4 - R100 + doy)
    (hfY : 365*Y + Q4 - Q100 ≤ doe)
    (hgt : yoe < Y) : False := by
  have h1 : yoe + 1 ≤ Y := by omega
  have h2 : R4 ≤ Q4 := by omega
  have h5 : Q100 ≤ 3 := by omega
  have h6 : 0 ≤ R100 := by omega
  omega

theorem cruxZ2 (yoe doy doe A B C Y R4 R100 S4 S100 Q4 Q100 : Int)
    (hyoe : 0 ≤ yoe ∧ yoe ≤ 399) (hdoy : 0 ≤ doy ∧ doy ≤ 337)
    (hR4 : 4*R4 ≤ yoe ∧ yoe < 4*R4 + 4)
    (hR100 : 100*R100 ≤ yoe ∧ yoe < 100*R100 + 100)
    (hdoe : doe = 365*yoe + R4 - R100 + doy)
    (hA : 1460*A ≤ doe ∧ doe < 1460*A + 1460)
    (hB : 36524*B ≤ doe ∧ doe < 36524*B + 36524)
    (hC : 146096*C ≤ doe ∧ doe < 146096*C + 146096)
    (hY : 365*Y ≤ doe - A + B - C ∧ doe - A + B - C < 365*Y + 365)
    (hS4 : 4*S4 ≤ Y + 1 ∧ Y + 1 < 4*S4 + 4)
    (hS100 : 100*S100 ≤ Y + 1 ∧ Y + 1 < 100*S100 + 100)
    (hQ4 : 4*Q4 ≤ Y ∧ Y < 4*Q4 + 4)
    (hQ100 : 100*Q100 ≤ Y ∧ Y < 100*Q100 + 100) :
    Y = yoe := by
  have h0doe : 0 ≤ doe := by
    clear hA hB hC hY hS4 hS100 hQ4 hQ100
    omega
  have hedge : doe ≤ 146095 := by
    clear hA hB hC hY hS4 hS100 hQ4 hQ100
    omega
  have h3 := cruxZ3 doe A B C Y S4 S100 h0doe hedge hA hB hC hY hS4 hS100
  have hc := cruxZ doe A B C Y Q4 Q100 h0doe (by omega) hA hB hC hY hQ4 hQ100
  rcases lt_trichotomy Y yoe with hlt | heq | hgt
  · exact (cruxTriLt yoe doy doe Y R4 R100 S4 S100 hdoy.1 hR4 hR100 hS4 hS100
      hdoe h3 hlt).elim
  · exact heq
  · exact (cruxTriGt yoe doy doe Y R4 R100 Q4 Q100 hdoy.2 hR4 hR100 hQ4 hQ100
      hyoe.1 hc.2.2.2 hdoe hc.1 hgt).elim

set_option maxHeartbeats 4000000 in
theorem firstAux (y m z y2 era yoe R4 R100 mp E5 doe
    n era2 doe2 A B C Y Q4 Q100 doy2 mp2 E52 : Int)
    (hm1 : 1 ≤ m) (hm12 : m ≤ 12)
    (hy2 : y2 = y - (if m ≤ 2 then 1 else 0))
    (hera : era = y2 / 400) (hyoe : yoe = y2 - 400 * era)
    (hR4 : R4 = yoe / 4) (hR100 : R100 = yoe / 100)
    (hmp : mp = if 3 ≤ m then m - 3 else m + 9)
    (hE5 : E5 = (153 * mp + 2) / 5)
    (hdoe : doe = 365 * yoe + R4 - R100 + (E5 + 1 - 1))
    (hz : z = era * 146097 + doe - 719468)
    (hn : n = z + 719468) (hera2 : era2 = n / 146097) (hdoe2 : doe2 = n - 146097 * era2)
    (hA : A = doe2 / 1460) (hB : B = doe2 / 36524) (hC : C = doe2 / 146096)
    (hY : Y = (doe2 - A + B - C) / 365)
    (hQ4 : Q4 = Y / 4) (hQ100 : Q100 = Y / 100)
    (hdoy2 : doy2 = doe2 - (365 * Y + Q4 - Q100))
    (hmp2 : mp2 = (5 * doy2 + 2) / 153)
    (hE52 : E52 = (153 * mp2 + 2) / 5) :
    civilFromDays z = (y, m, 1) := by
  simp only [civilFromDays]
  rw [← hn, ← hera2, ← hdoe2, ← hA, ← hB, ← hC, ← hY, ← hQ4, ← hQ100, ← hdoy2,
    ← hmp2, ← hE52]
  have hyoe0 : 0 ≤ yoe := by omega
  have hyoe399 : yoe ≤ 399 := by omega
  by_cases hm3 : 3 ≤ m
  · rw [if_neg (by omega : ¬ m ≤ 2)] at hy2
    rw [if_pos hm3] at hmp
    have hmp0 : 0 ≤ mp := by omega
    have hmp9 : mp ≤ 9 := by omega
    have hE50 : 0 ≤ E5 := by omega
    have hE5b : E5 ≤ 306 := by omega
    have hdoeb : 0 ≤ doe ∧ doe ≤ 146095 := by omega
    have hera2eq : era2 = era := by omega
    have hdoe2eq : doe2 = doe := by omega
    have hYeq : Y = yoe := by
      refine cruxZ2 yoe (E5 + 1 - 1) doe2 A B C Y R4 R100
        ((Y+1) / 4) ((Y+1) / 100) Q4 Q100
        ⟨hyoe0, hyoe399⟩ ⟨by omega, by omega⟩ ⟨by omega, by omega⟩
        ⟨by omega, by omega⟩ (by omega) ⟨by omega, by omega⟩ ⟨by omega, by omega⟩
        ⟨by omega, by omega⟩ ⟨by omega, by omega⟩ ⟨by omega, by omega⟩
        ⟨by omega, by omega⟩ ⟨by omega, by omega⟩ ⟨by omega, by omega⟩
    have hQ4eq : Q4 = R4 := by omega
    have hQ100eq : Q100 = R100 := by omega
    have hdoy2eq : doy2 = E5 := by omega
    have hmp2eq : mp2 = mp := by
      interval_cases mp <;> omega
    have hE52eq : E52 = E5 := by omega
    rw [if_pos (by omega : mp2 < 10)]
    rw [if_neg (by omega : ¬ mp2 + 3 ≤ 2)]
    simp only [Prod.mk.injEq]
    refine ⟨by omega, by omega, by omega⟩
  · rw [if_pos (by omega : m ≤ 2)] at hy2
    rw [if_neg hm3] at hmp
    have hmp0 : 10 ≤ mp := by omega
    have hmp9 : mp ≤ 11 := by omega
    have hE50 : 306 ≤ E5 := by omega
    have hE5b : E5 ≤ 337 := by omega
    have hdoeb : 0 ≤ doe ∧ doe ≤ 146095 := by omega
    have hera2eq : era2 = era := by omega
    have hdoe2eq : doe2 = doe := by omega
    have hYeq : Y = yoe := by
      refine cruxZ2 yoe (E5 + 1 - 1) doe2 A B C Y R4 R100
        ((Y+1) / 4) ((Y+1) / 100) Q4 Q100
        ⟨hyoe0, hyoe399⟩ ⟨by omega, by omega⟩ ⟨by omega, by omega⟩
        ⟨by omega, by omega⟩ (by omega) ⟨by omega, by omega⟩ ⟨by omega, by omega⟩
        ⟨by omega, by omega⟩ ⟨by omega, by omega⟩ ⟨by omega, by omega⟩
        ⟨by omega, by omega⟩ ⟨by omega, by omega⟩ ⟨by omega, by omega⟩
    have hQ4eq : Q4 = R4 := by omega
    have hQ100eq : Q100 = R100 := by omega
    have hdoy2eq : doy2 = E5 := by omega
    have hmp2eq : mp2 = mp := by
      interval_cases mp <;> omega
    have hE52eq : E52 = E5 := by omega
    rw [if_neg (by omega : ¬ mp2 < 10)]
    rw [if_pos (by omega : mp2 - 9 ≤ 2)]
    simp only [Prod.mk.injEq]
    refine ⟨by omega, by omega, by omega⟩

theorem civil_days_first (y m : Int) (hm1 : 1 ≤ m) (hm12 : m ≤ 12) :
    civilFromDays (daysFromCivil y m 1) = (y, m, 1) := by
  exact firstAux y m (daysFromCivil y m 1)
    _ _ _ _ _ _ _ _ _ _ _ _ _ _ _ _ _ _ _ _ hm1 hm12
    rfl rfl rfl rfl rfl rfl rfl rfl rfl rfl rfl rfl rfl rfl rfl rfl rfl rfl rfl
    rfl rfl

set_option maxHeartbeats 4000000 in
theorem monoAux (y m1 m2 y2a eraA yoeA R4a R100a mpa E5a
    y2b eraB yoeB R4b R100b mpb E5b : Int)
    (h1 : 1 ≤ m1) (h2 : m1 ≤ m2) (h3 : m2 ≤ 12)
    (ha1 : y2a = y - (if m1 ≤ 2 then 1 else 0)) (ha2 : eraA = y2a / 400)
    (ha3 : yoeA = y2a - 400 * eraA) (ha4 : R4a = yoeA / 4) (ha5 : R100a = yoeA / 100)
    (ha6 : mpa = if 3 ≤ m1 then m1 - 3 else m1 + 9) (ha7 : E5a = (153 * mpa + 2) / 5)
    (hb1 : y2b = y - (if m2 ≤ 2 then 1 else 0)) (hb2 : eraB = y2b / 400)
    (hb3 : yoeB = y2b - 400 * eraB) (hb4 : R4b = yoeB / 4) (hb5 : R100b = yoeB / 100)
    (hb6 : mpb = if 3 ≤ m2 then m2 - 3 else m2 + 9) (hb7 : E5b = (153 * mpb + 2) / 5) :
    daysFromCivil y m1 1 ≤ daysFromCivil y m2 1 := by
  simp only [daysFromCivil]
  rw [← ha1, ← ha2, ← hb1, ← hb2]
  rw [show y2a - 400 * eraA = yoeA from ha3.symm, show y2b - 400 * eraB = yoeB from hb3.symm]
  rw [← ha4, ← ha5, ← hb4, ← hb5, ← ha6, ← hb6, ← ha7, ← hb7]
  by_cases hc1 : m1 ≤ 2
  · rw [if_pos hc1] at ha1
    rw [if_neg (by omega : ¬ 3 ≤ m1)] at ha6
    by_cases hc2 : m2 ≤ 2
    · rw [if_pos hc2] at hb1
      rw [if_neg (by omega : ¬ 3 ≤ m2)] at hb6
      omega
    · rw [if_neg hc2] at hb1
      rw [if_pos (by omega : 3 ≤ m2)] at hb6
      have hyb0 : 0 ≤ yoeB ∧ yoeB ≤ 399 := by omega
      rcases (by omega : yoeB = 0 ∨ 1 ≤ yoeB) with hy0 | hy1
      · have hea : eraA = eraB - 1 := by omega
        have hya : yoeA = 399 := by omega
        omega
      · have hea : eraA = eraB := by omega
        have hya : yoeA = yoeB - 1 := by omega
        omega
  · rw [if_neg hc1] at ha1
    rw [if_pos (by omega : 3 ≤ m1)] at ha6
    by_cases hc2 : m2 ≤ 2
    · omega
    · rw [if_neg hc2] at hb1
      rw [if_pos (by omega : 3 ≤ m2)] at hb6
      omega

theorem daysFromCivil_first_le (y m1 m2 : Int) (h1 : 1 ≤ m1) (h2 : m1 ≤ m2)
    (h3 : m2 ≤ 12) : daysFromCivil y m1 1 ≤ daysFromCivil y m2 1 :=
  monoAux y m1 m2 _ _ _ _ _ _ _ _ _ _ _ _ _ _ h1 h2 h3
    rfl rfl rfl rfl rfl rfl rfl rfl rfl rfl rfl rfl rfl rfl

/-- Go time.Time.Weekday at day granularity: day 0 (1970-01-01) was a
Thursday, Go weekday 4; Sunday is 0 and Monday is 1. -/
def goWeekday (z : Int) : Int := (z + 4) % 7

/-- GetDateRange of storage/storage.go (lines 306-347). `today` is the
current date as a day count; `availableDays` renders ListAvailableDays,
consulted only by the "all" keyword (`none` stands for a listing error,
which the code treats like an empty listing). The Go switch on the keyword
is an equality chain; an unknown keyword yields an error, rendered as
`none`. -/
def Storage.GetDateRange (today : Int) (availableDays : Option (List Int))
    (rangeType : String) : Option (Int × Int) :=
  if rangeType = "day" then some (today, today)
  else if rangeType = "week" then
    let weekday := goWeekday today
    let weekday2 := if weekday = 0 then 7 else weekday
    some (today - (weekday2 - 1), today)
  else if rangeType = "month" then
    let c := civilFromDays today
    some (daysFromCivil c.1 c.2.1 1, today)
  else if rangeType = "quarter" then
    let c := civilFromDays today
    let monthsToSubtract := (c.2.1 - 1) % 3
    some (daysFromCivil c.1 (c.2.1 - monthsToSubtract) 1, today)
  else if rangeType = "year" then
    let c := civilFromDays today
    some (daysFromCivil c.1 1 1, today)
  else if rangeType = "all" then
    match availableDays with
    | none => some (today, today)
    | some [] => some (today, today)
    | some (d0 :: rest) =>
        some ((d0 :: rest).foldl (fun e d => if d < e then d else e) d0, today)
  else none

/-- The "all" branch folds for the earliest stored day; the fold result is
a lower bound of, and (for a nonempty list) a member of, the list. -/
theorem foldlMin_spec (l : List Int) (a : Int) :
    (l.foldl (fun e d => if d < e then d else e) a ≤ a) ∧
    (l.foldl (fun e d => if d < e then d else e) a = a ∨
      l.foldl (fun e d => if d < e then d else e) a ∈ l) ∧
    (∀ x ∈ l, l.foldl (fun e d => if d < e then d else e) a ≤ x) := by
  induction l generalizing a with
  | nil => exact ⟨le_refl a, Or.inl rfl, fun x hx => absurd hx (List.not_mem_nil x)⟩
  | cons d rest ih =>
      simp only [List.foldl_cons]
      by_cases hd : d < a
      · rw [if_pos hd]
        refine ⟨le_trans (ih d).1 (le_of_lt hd), ?_, ?_⟩
        · rcases (ih d).2.1 with h | h
          · exact Or.inr (by rw [h]; exact List.mem_cons_self d rest)
          · exact Or.inr (List.mem_cons_of_mem d h)
        · intro x hx
          rcases List.mem_cons.mp hx with h | hx2
          · rw [h]; exact (ih d).1
          · exact (ih d).2.2 x hx2
      · rw [if_neg hd]
        refine ⟨(ih a).1, ?_, ?_⟩
        · rcases (ih a).2.1 with h | h
          · exact Or.inl h
          · exact Or.inr (List.mem_cons_of_mem d h)
        · intro x hx
          rcases List.mem_cons.mp hx with h | hx2
          · rw [h]; exact le_trans (ih a).1 (by omega)
          · exact (ih a).2.2 x hx2

set_option maxHeartbeats 1000000 in
/-- C7: GetDateRange maps "day" to (today, today); "week" to (the most
recent Monday on or before today, today); "month" to (the first of the
current month, today); "quarter" to (the first day of the current 3-month
block, today); "year" to (January 1 of the current year, today); "all" to
(the earliest stored day, today), or (today, today) when no days are
stored or the listing fails; and every other keyword to an error. -/
theorem C7_GetDateRange (t : Int) (days : List Int) (kw : String) :
    Storage.GetDateRange t (some days) "day" = some (t, t) ∧
    (∃ s, Storage.GetDateRange t (some days) "week" = some (s, t) ∧
      goWeekday s = 1 ∧ s ≤ t ∧ t - s ≤ 6) ∧
    (∃ s, Storage.GetDateRange t (some days) "month" = some (s, t) ∧
      civilFromDays s = ((civilFromDays t).1, (civilFromDays t).2.1, 1) ∧ s ≤ t) ∧
    (∃ s, Storage.GetDateRange t (some days) "quarter" = some (s, t) ∧
      civilFromDays s =
        ((civilFromDays t).1, 3 * (((civilFromDays t).2.1 - 1) / 3) + 1, 1) ∧
      s ≤ t) ∧
    (∃ s, Storage.GetDateRange t (some days) "year" = some (s, t) ∧
      civilFromDays s = ((civilFromDays t).1, 1, 1) ∧ s ≤ t) ∧
    (days ≠ [] → ∃ s, Storage.GetDateRange t (some days) "all" = some (s, t) ∧
      s ∈ days ∧ ∀ x ∈ days, s ≤ x) ∧
    (days = [] → Storage.GetDateRange t (some days) "all" = some (t, t)) ∧
    Storage.GetDateRange t none "all" = some (t, t) ∧
    (kw ∉ (["day", "week", "month", "quarter", "year", "all"] : List String) →
      Storage.GetDateRange t (some days) kw = none) := by
  obtain ⟨hrt, hm1, hm12, hd1, hd31, hshift⟩ := civil_roundtrip t
  refine ⟨rfl, ?_, ?_, ?_, ?_, ?_, ?_, rfl, ?_⟩
  · refine ⟨t - ((if goWeekday t = 0 then 7 else goWeekday t) - 1), rfl, ?_, ?_, ?_⟩ <;>
      (simp only [goWeekday]
       by_cases h0 : (t + 4) % 7 = 0
       · rw [if_pos h0]; omega
       · rw [if_neg h0]; omega)
  · refine ⟨_, rfl, ?_, ?_⟩
    · exact civil_days_first (civilFromDays t).1 (civilFromDays t).2.1 hm1 hm12
    · omega
  · refine ⟨_, rfl, ?_, ?_⟩
    · have hq : (civilFromDays t).2.1 - ((civilFromDays t).2.1 - 1) % 3 =
          3 * (((civilFromDays t).2.1 - 1) / 3) + 1 := by omega
      rw [hq]
      exact civil_days_first (civilFromDays t).1
        (3 * (((civilFromDays t).2.1 - 1) / 3) + 1) (by omega) (by omega)
    · have hle := daysFromCivil_first_le (civilFromDays t).1
        ((civilFromDays t).2.1 - ((civilFromDays t).2.1 - 1) % 3)
        (civilFromDays t).2.1 (by omega) (by omega) hm12
      omega
  · refine ⟨_, rfl, ?_, ?_⟩
    · exact civil_days_first (civilFromDays t).1 1 (by omega) (by omega)
    · have hle := daysFromCivil_first_le (civilFromDays t).1 1
        (civilFromDays t).2.1 (by omega) hm1 hm12
      omega
  · intro hne
    match days, hne with
    | d0 :: rest, _ =>
        refine ⟨_, rfl, ?_, ?_⟩
        · rcases (foldlMin_spec (d0 :: rest) d0).2.1 with h | h
          · rw [h]; exact List.mem_cons_self d0 rest
          · exact h
        · exact (foldlMin_spec (d0 :: rest) d0).2.2
  · intro he
    subst he
    rfl
  · intro hkw
    simp only [List.mem_cons, List.mem_singleton, not_or] at hkw
    unfold Storage.GetDateRange
    rw [if_neg (by simpa using hkw.1), if_neg (by simpa using hkw.2.1),
      if_neg (by simpa using hkw.2.2.1), if_neg (by simpa using hkw.2.2.2.1),
      if_neg (by simpa using hkw.2.2.2.2.1), if_neg (by simpa using hkw.2.2.2.2.2)]

/-- C7 witness: concrete instances at day 0 (Thursday 1970-01-01): the
day range, the week range, the "all" range over stored days [5, 3, 9]
(earliest 3), the empty-store "all" range, and the unknown keyword
"fortnight". -/
theorem C7_witness :
    Storage.GetDateRange 0 (some [5, 3, 9]) "day" = some (0, 0) ∧
    (∃ s, Storage.GetDateRange 0 (some [5, 3, 9]) "week" = some (s, 0) ∧
      goWeekday s = 1 ∧ s ≤ 0 ∧ 0 - s ≤ 6) ∧
    (∃ s, Storage.GetDateRange 0 (some [5, 3, 9]) "all" = some (s, 0) ∧
      s ∈ [5, 3, 9] ∧ ∀ x ∈ ([5, 3, 9] : List Int), s ≤ x) ∧
    Storage.GetDateRange 0 none "all" = some (0, 0) ∧
    Storage.GetDateRange 0 (some [5, 3, 9]) "fortnight" = none := by
  have h := C7_GetDateRange 0 [5, 3, 9] "fortnight"
  exact ⟨h.1, h.2.1, h.2.2.2.2.2.1 (by decide), h.2.2.2.2.2.2.2.1,
    h.2.2.2.2.2.2.2.2 (by decide)⟩


/-- Hour of day of a timestamp in nanoseconds since the epoch, modelling
`time.Time.Hour` (0..23). -/
def hourOfDay (t : Int) : Int := (t / hourNS) % 24

/-- A Go map update `m[k] = f(m[k])` on a map rendered as an association
list in insertion order: the binding for `k` is updated in place; a
missing key is appended at the end holding `f d`, where `d` is the zero
value Go reads for a missing key. -/
def mapUpd {α β : Type} [DecidableEq α] (f : β → β) (d : β) :
    List (α × β) → α → List (α × β)
  | [], k => [(k, f d)]
  | (k2, v) :: rest, k =>
      if k2 = k then (k2, f v) :: rest else (k2, v) :: mapUpd f d rest k

/-- The interruption-pair loop inside GetDetailedStats (storage.go lines
416-434): the legacy interruption list of a completed session is walked
two at a time; each completed pair adds its span to the session's
interruption time, bumps InterruptionsByTag and InterruptionDurationByTag
under the pair's tag (empty tag read as "other"), and increments
TotalInterruptions. The accumulator is (interruption time within this
session, InterruptionsByTag, InterruptionDurationByTag,
TotalInterruptions). -/
def detailPairWalk :
    List TimeEntry → Int × List (String × Nat) × List (String × Int) × Nat →
      Int × List (String × Nat) × List (String × Int) × Nat
  | a :: b :: rest, acc =>
      let span := b.StartTime - a.StartTime
      let tag := if a.Tag = "" then "other" else a.Tag
      detailPairWalk rest
        (acc.1 + span, mapUpd (fun n => n + 1) 0 acc.2.1 tag,
          mapUpd (fun x => x + span) 0 acc.2.2.1 tag, acc.2.2.2 + 1)
  | _, acc => acc

/-- The per-session body of GetDetailedStats (storage.go lines 410-450):
a session is processed only when both its Start and its End entry are
present; its pure work time (span minus completed interruption pairs)
then feeds TotalSessions, LongestSession, HourlyProductivity (keyed by
the start hour) and the running total duration used for
AverageSessionTime. The accumulator pairs the statistics under
construction with that running total. -/
def detailSessionStep (acc : DetailedStats × Int) (sess : Session) :
    DetailedStats × Int :=
  match sess.Start, sess.End with
  | some s0, some e0 =>
      let st := acc.1
      let sessionDuration := e0.StartTime - s0.StartTime
      let w := detailPairWalk sess.Interruptions
        (0, st.InterruptionsByTag, st.InterruptionDurationByTag,
          st.TotalInterruptions)
      let pureWorkTime := sessionDuration - w.1
      ({ st with
          InterruptionsByTag := w.2.1,
          InterruptionDurationByTag := w.2.2.1,
          TotalInterruptions := w.2.2.2,
          TotalSessions := st.TotalSessions + 1,
          LongestSession :=
            if st.LongestSession < pureWorkTime then pureWorkTime
            else st.LongestSession,
          HourlyProductivity :=
            mapUpd (fun x => x + pureWorkTime) 0 st.HourlyProductivity
              (hourOfDay s0.StartTime) },
        acc.2 + pureWorkTime)
  | _, _ => acc

/-- The per-day body of GetDetailedStats (storage.go lines 399-452): the
day's GetStats work total is written into DailyWorkDurations under the
day's key and added to TotalWorkDuration, then every session of the day
is processed by `detailSessionStep`. -/
def detailDayStep (now : Int) (acc : DetailedStats × Int)
    (day : Int × DailySessions) : DetailedStats × Int :=
  let work := (day.2.GetStats now).1
  let st := acc.1
  let st1 := { st with
    DailyWorkDurations := mapUpd (fun _ => work) work st.DailyWorkDurations day.1,
    TotalWorkDuration := st.TotalWorkDuration + work }
  day.2.Sessions.foldl detailSessionStep (st1, acc.2)

/-- GetDetailedStats of storage/storage.go (lines 376-461). `days` is the
list of (day key, loaded DailySessions) pairs the range loop visits in
range order; a day whose load fails is skipped by the code and is
correspondingly absent from the list. After the fold, AverageSessionTime
is the truncated quotient of the accumulated pure-work total by
TotalSessions when the latter is positive. -/
def Storage.GetDetailedStats (now startDate endDate : Int)
    (days : List (Int × DailySessions)) : DetailedStats :=
  let r := days.foldl (detailDayStep now)
    (⟨startDate, endDate, 0, 0, 0, 0, 0, [], [], [], []⟩, 0)
  if 0 < r.1.TotalSessions then
    { r.1 with AverageSessionTime := Int.tdiv r.2 (r.1.TotalSessions : Int) }
  else r.1

/-- A session missing its Start or its End entry leaves the per-session
accumulator untouched. -/
theorem detailSessionStep_skip (p : DetailedStats × Int) (s : Session)
    (h : s.Start = none ∨ s.End = none) : detailSessionStep p s = p := by
  rcases hs : s.Start with _ | s0 <;> rcases he : s.End with _ | e0 <;>
    simp only [detailSessionStep, hs, he]
  rw [hs, he] at h
  rcases h with h | h <;> exact absurd h (by simp)

/-- A session with both entries present increments TotalSessions. -/
theorem detailSessionStep_counts (p : DetailedStats × Int) (s : Session)
    (h1 : s.Start.isSome) (h2 : s.End.isSome) :
    (detailSessionStep p s).1.TotalSessions = p.1.TotalSessions + 1 := by
  rcases hs : s.Start with _ | s0
  · rw [hs] at h1; exact absurd h1 (by simp)
  rcases he : s.End with _ | e0
  · rw [he] at h2; exact absurd h2 (by simp)
  simp only [detailSessionStep, hs, he]

/-- The per-session step never touches TotalWorkDuration,
DailyWorkDurations, the date range or AverageSessionTime. -/
theorem detailSessionStep_keeps (p : DetailedStats × Int) (s : Session) :
    (detailSessionStep p s).1.TotalWorkDuration = p.1.TotalWorkDuration ∧
    (detailSessionStep p s).1.DailyWorkDurations = p.1.DailyWorkDurations ∧
    (detailSessionStep p s).1.StartDate = p.1.StartDate ∧
    (detailSessionStep p s).1.EndDate = p.1.EndDate ∧
    (detailSessionStep p s).1.AverageSessionTime = p.1.AverageSessionTime := by
  rcases hs : s.Start with _ | s0 <;> rcases he : s.End with _ | e0 <;>
    simp [detailSessionStep, hs, he]

/-- The session fold never touches TotalWorkDuration, DailyWorkDurations,
the date range or AverageSessionTime. -/
theorem detailFold_keeps (l : List Session) (p : DetailedStats × Int) :
    ((l.foldl detailSessionStep p).1.TotalWorkDuration = p.1.TotalWorkDuration) ∧
    ((l.foldl detailSessionStep p).1.DailyWorkDurations = p.1.DailyWorkDurations) ∧
    ((l.foldl detailSessionStep p).1.AverageSessionTime = p.1.AverageSessionTime) := by
  induction l generalizing p with
  | nil => exact ⟨rfl, rfl, rfl⟩
  | cons s rest ih =>
      simp only [List.foldl_cons]
      have hstep := detailSessionStep_keeps p s
      have hrest := ih (detailSessionStep p s)
      exact ⟨hrest.1.trans hstep.1, hrest.2.1.trans hstep.2.1,
        hrest.2.2.trans hstep.2.2.2.2⟩

/-- The session-facing fields produced by one step depend only on the
session-facing fields of the accumulator, not on TotalWorkDuration,
DailyWorkDurations or the date range. -/
theorem detailSessionStep_congr (p1 p2 : DetailedStats × Int) (s : Session)
    (hts : p1.1.TotalSessions = p2.1.TotalSessions)
    (hls : p1.1.LongestSession = p2.1.LongestSession)
    (hti : p1.1.TotalInterruptions = p2.1.TotalInterruptions)
    (hibt : p1.1.InterruptionsByTag = p2.1.InterruptionsByTag)
    (hidt : p1.1.InterruptionDurationByTag = p2.1.InterruptionDurationByTag)
    (hhp : p1.1.HourlyProductivity = p2.1.HourlyProductivity)
    (htd : p1.2 = p2.2) :
    (detailSessionStep p1 s).1.TotalSessions =
      (detailSessionStep p2 s).1.TotalSessions ∧
    (detailSessionStep p1 s).1.LongestSession =
      (detailSessionStep p2 s).1.LongestSession ∧
    (detailSessionStep p1 s).1.TotalInterruptions =
      (detailSessionStep p2 s).1.TotalInterruptions ∧
    (detailSessionStep p1 s).1.InterruptionsByTag =
      (detailSessionStep p2 s).1.InterruptionsByTag ∧
    (detailSessionStep p1 s).1.InterruptionDurationByTag =
      (detailSessionStep p2 s).1.InterruptionDurationByTag ∧
    (detailSessionStep p1 s).1.HourlyProductivity =
      (detailSessionStep p2 s).1.HourlyProductivity ∧
    (detailSessionStep p1 s).2 = (detailSessionStep p2 s).2 := by
  rcases hs : s.Start with _ | s0 <;> rcases he : s.End with _ | e0 <;>
    simp only [detailSessionStep, hs, he]
  · exact ⟨hts, hls, hti, hibt, hidt, hhp, htd⟩
  · exact ⟨hts, hls, hti, hibt, hidt, hhp, htd⟩
  · exact ⟨hts, hls, hti, hibt, hidt, hhp, htd⟩
  · rw [hts, hls, hti, hibt, hidt, hhp, htd]
    exact ⟨rfl, rfl, rfl, rfl, rfl, rfl, rfl⟩

/-- The session-facing fields produced by the session fold depend only on
the session-facing fields of the starting accumulator. -/
theorem detailFold_congr (l : List Session) (p1 p2 : DetailedStats × Int)
    (hts : p1.1.TotalSessions = p2.1.TotalSessions)
    (hls : p1.1.LongestSession = p2.1.LongestSession)
    (hti : p1.1.TotalInterruptions = p2.1.TotalInterruptions)
    (hibt : p1.1.InterruptionsByTag = p2.1.InterruptionsByTag)
    (hidt : p1.1.InterruptionDurationByTag = p2.1.InterruptionDurationByTag)
    (hhp : p1.1.HourlyProductivity = p2.1.HourlyProductivity)
    (htd : p1.2 = p2.2) :
    (l.foldl detailSessionStep p1).1.TotalSessions =
      (l.foldl detailSessionStep p2).1.TotalSessions ∧
    (l.foldl detailSessionStep p1).1.LongestSession =
      (l.foldl detailSessionStep p2).1.LongestSession ∧
    (l.foldl detailSessionStep p1).1.TotalInterruptions =
      (l.foldl detailSessionStep p2).1.TotalInterruptions ∧
    (l.foldl detailSessionStep p1).1.InterruptionsByTag =
      (l.foldl detailSessionStep p2).1.InterruptionsByTag ∧
    (l.foldl detailSessionStep p1).1.InterruptionDurationByTag =
      (l.foldl detailSessionStep p2).1.InterruptionDurationByTag ∧
    (l.foldl detailSessionStep p1).1.HourlyProductivity =
      (l.foldl detailSessionStep p2).1.HourlyProductivity ∧
    (l.foldl detailSessionStep p1).2 = (l.foldl detailSessionStep p2).2 := by
  induction l generalizing p1 p2 with
  | nil => exact ⟨hts, hls, hti, hibt, hidt, hhp, htd⟩
  | cons s rest ih =>
      simp only [List.foldl_cons]
      have h := detailSessionStep_congr p1 p2 s hts hls hti hibt hidt hhp htd
      exact ih (detailSessionStep p1 s) (detailSessionStep p2 s)
        h.1 h.2.1 h.2.2.1 h.2.2.2.1 h.2.2.2.2.1 h.2.2.2.2.2.1 h.2.2.2.2.2.2

/-- Each field of GetDetailedStats in terms of the underlying fold. -/
theorem getDetailedStats_fields (now sd ed : Int)
    (days : List (Int × DailySessions)) :
    (Storage.GetDetailedStats now sd ed days).TotalSessions =
      (days.foldl (detailDayStep now)
        (⟨sd, ed, 0, 0, 0, 0, 0, [], [], [], []⟩, 0)).1.TotalSessions ∧
    (Storage.GetDetailedStats now sd ed days).LongestSession =
      (days.foldl (detailDayStep now)
        (⟨sd, ed, 0, 0, 0, 0, 0, [], [], [], []⟩, 0)).1.LongestSession ∧
    (Storage.GetDetailedStats now sd ed days).TotalWorkDuration =
      (days.foldl (detailDayStep now)
        (⟨sd, ed, 0, 0, 0, 0, 0, [], [], [], []⟩, 0)).1.TotalWorkDuration ∧
    (Storage.GetDetailedStats now sd ed days).DailyWorkDurations =
      (days.foldl (detailDayStep now)
        (⟨sd, ed, 0, 0, 0, 0, 0, [], [], [], []⟩, 0)).1.DailyWorkDurations ∧
    (Storage.GetDetailedStats now sd ed days).HourlyProductivity =
      (days.foldl (detailDayStep now)
        (⟨sd, ed, 0, 0, 0, 0, 0, [], [], [], []⟩, 0)).1.HourlyProductivity ∧
    (Storage.GetDetailedStats now sd ed days).InterruptionsByTag =
      (days.foldl (detailDayStep now)
        (⟨sd, ed, 0, 0, 0, 0, 0, [], [], [], []⟩, 0)).1.InterruptionsByTag ∧
    (Storage.GetDetailedStats now sd ed days).InterruptionDurationByTag =
      (days.foldl (detailDayStep now)
        (⟨sd, ed, 0, 0, 0, 0, 0, [], [], [], []⟩, 0)).1.InterruptionDurationByTag ∧
    (Storage.GetDetailedStats now sd ed days).TotalInterruptions =
      (days.foldl (detailDayStep now)
        (⟨sd, ed, 0, 0, 0, 0, 0, [], [], [], []⟩, 0)).1.TotalInterruptions ∧
    (Storage.GetDetailedStats now sd ed days).AverageSessionTime =
      (if 0 < (days.foldl (detailDayStep now)
          (⟨sd, ed, 0, 0, 0, 0, 0, [], [], [], []⟩, 0)).1.TotalSessions then
        Int.tdiv (days.foldl (detailDayStep now)
          (⟨sd, ed, 0, 0, 0, 0, 0, [], [], [], []⟩, 0)).2
          ((days.foldl (detailDayStep now)
            (⟨sd, ed, 0, 0, 0, 0, 0, [], [], [], []⟩, 0)).1.TotalSessions : Int)
      else (days.foldl (detailDayStep now)
        (⟨sd, ed, 0, 0, 0, 0, 0, [], [], [], []⟩, 0)).1.AverageSessionTime) := by
  simp only [Storage.GetDetailedStats]
  split_ifs with h
  · simp
  · simp

/-- The day fold over a single day unfolds to the session fold started
from the day's work total. -/
theorem dayFold_single (now sd ed k d : Int) (l : List Session) :
    ([(k, (⟨d, l⟩ : DailySessions))].foldl (detailDayStep now)
        (⟨sd, ed, 0, 0, 0, 0, 0, [], [], [], []⟩, 0)) =
      l.foldl detailSessionStep
        (⟨sd, ed, 0 + ((⟨d, l⟩ : DailySessions).GetStats now).1, 0, 0, 0, 0, [], [],
          [(k, ((⟨d, l⟩ : DailySessions).GetStats now).1)], []⟩, 0) := rfl


set_option maxHeartbeats 1000000 in
/-- C10: GetDetailedStats counts a session toward TotalSessions,
LongestSession, AverageSessionTime, HourlyProductivity and the per-tag
interruption maps only when both its start and end entries are present.
Appending an active (unended) session to a day leaves every one of those
fields unchanged, while TotalWorkDuration and the day's
DailyWorkDurations entry grow by exactly the session's GetStats work
contribution — which is `(Session.stats now s).1`: positive for an active
sub-session, but zero for an active legacy-shaped session, so an active
session's elapsed time does not always reach TotalWorkDuration. Appending
a session with both entries present increments TotalSessions. -/
theorem C10_active_session_excluded (now sd ed k d : Int) (pre : List Session)
    (s : Session) :
    (s.End = none →
      (Storage.GetDetailedStats now sd ed [(k, ⟨d, pre ++ [s]⟩)]).TotalSessions =
        (Storage.GetDetailedStats now sd ed [(k, ⟨d, pre⟩)]).TotalSessions ∧
      (Storage.GetDetailedStats now sd ed [(k, ⟨d, pre ++ [s]⟩)]).LongestSession =
        (Storage.GetDetailedStats now sd ed [(k, ⟨d, pre⟩)]).LongestSession ∧
      (Storage.GetDetailedStats now sd ed [(k, ⟨d, pre ++ [s]⟩)]).AverageSessionTime =
        (Storage.GetDetailedStats now sd ed [(k, ⟨d, pre⟩)]).AverageSessionTime ∧
      (Storage.GetDetailedStats now sd ed [(k, ⟨d, pre ++ [s]⟩)]).HourlyProductivity =
        (Storage.GetDetailedStats now sd ed [(k, ⟨d, pre⟩)]).HourlyProductivity ∧
      (Storage.GetDetailedStats now sd ed [(k, ⟨d, pre ++ [s]⟩)]).InterruptionsByTag =
        (Storage.GetDetailedStats now sd ed [(k, ⟨d, pre⟩)]).InterruptionsByTag ∧
      (Storage.GetDetailedStats now sd ed
          [(k, ⟨d, pre ++ [s]⟩)]).InterruptionDurationByTag =
        (Storage.GetDetailedStats now sd ed [(k, ⟨d, pre⟩)]).InterruptionDurationByTag ∧
      (Storage.GetDetailedStats now sd ed [(k, ⟨d, pre ++ [s]⟩)]).TotalInterruptions =
        (Storage.GetDetailedStats now sd ed [(k, ⟨d, pre⟩)]).TotalInterruptions ∧
      (Storage.GetDetailedStats now sd ed [(k, ⟨d, pre ++ [s]⟩)]).TotalWorkDuration =
        (Storage.GetDetailedStats now sd ed [(k, ⟨d, pre⟩)]).TotalWorkDuration +
          (Session.stats now s).1 ∧
      (Storage.GetDetailedStats now sd ed [(k, ⟨d, pre ++ [s]⟩)]).DailyWorkDurations =
        [(k, ((⟨d, pre⟩ : DailySessions).GetStats now).1 + (Session.stats now s).1)]) ∧
    (s.Start.isSome → s.End.isSome →
      (Storage.GetDetailedStats now sd ed [(k, ⟨d, pre ++ [s]⟩)]).TotalSessions =
        (Storage.GetDetailedStats now sd ed [(k, ⟨d, pre⟩)]).TotalSessions + 1) := by
  have hwf : ((⟨d, pre ++ [s]⟩ : DailySessions).GetStats now).1 =
      ((⟨d, pre⟩ : DailySessions).GetStats now).1 + (Session.stats now s).1 := by
    rw [getStats_eq_sum, getStats_eq_sum]
    simp
  have hFf := getDetailedStats_fields now sd ed [(k, ⟨d, pre ++ [s]⟩)]
  have hFb := getDetailedStats_fields now sd ed [(k, ⟨d, pre⟩)]
  rw [dayFold_single] at hFf hFb
  rw [List.foldl_append] at hFf
  simp only [List.foldl_cons, List.foldl_nil] at hFf
  have hcongr := detailFold_congr pre
    ((⟨sd, ed, 0 + ((⟨d, pre ++ [s]⟩ : DailySessions).GetStats now).1, 0, 0, 0, 0,
        [], [], [(k, ((⟨d, pre ++ [s]⟩ : DailySessions).GetStats now).1)], []⟩ :
        DetailedStats), 0)
    ((⟨sd, ed, 0 + ((⟨d, pre⟩ : DailySessions).GetStats now).1, 0, 0, 0, 0,
        [], [], [(k, ((⟨d, pre⟩ : DailySessions).GetStats now).1)], []⟩ :
        DetailedStats), 0)
    rfl rfl rfl rfl rfl rfl rfl
  have hkeepf := detailFold_keeps pre
    ((⟨sd, ed, 0 + ((⟨d, pre ++ [s]⟩ : DailySessions).GetStats now).1, 0, 0, 0, 0,
        [], [], [(k, ((⟨d, pre ++ [s]⟩ : DailySessions).GetStats now).1)], []⟩ :
        DetailedStats), 0)
  have hkeepb := detailFold_keeps pre
    ((⟨sd, ed, 0 + ((⟨d, pre⟩ : DailySessions).GetStats now).1, 0, 0, 0, 0,
        [], [], [(k, ((⟨d, pre⟩ : DailySessions).GetStats now).1)], []⟩ :
        DetailedStats), 0)
  constructor
  · intro hE
    rw [detailSessionStep_skip _ s (Or.inr hE)] at hFf
    refine ⟨?_, ?_, ?_, ?_, ?_, ?_, ?_, ?_, ?_⟩
    · rw [hFf.1, hFb.1]
      exact hcongr.1
    · rw [hFf.2.1, hFb.2.1]
      exact hcongr.2.1
    · rw [hFf.2.2.2.2.2.2.2.2, hFb.2.2.2.2.2.2.2.2, hcongr.1,
        hcongr.2.2.2.2.2.2, hkeepf.2.2, hkeepb.2.2]
    · rw [hFf.2.2.2.2.1, hFb.2.2.2.2.1]
      exact hcongr.2.2.2.2.2.1
    · rw [hFf.2.2.2.2.2.1, hFb.2.2.2.2.2.1]
      exact hcongr.2.2.2.1
    · rw [hFf.2.2.2.2.2.2.1, hFb.2.2.2.2.2.2.1]
      exact hcongr.2.2.2.2.1
    · rw [hFf.2.2.2.2.2.2.2.1, hFb.2.2.2.2.2.2.2.1]
      exact hcongr.2.2.1
    · rw [hFf.2.2.1, hFb.2.2.1, hkeepf.1, hkeepb.1]
      simp [hwf]
    · rw [hFf.2.2.2.1, hkeepf.2.1]
      simp [hwf]
  · intro h1 h2
    rw [hFf.1, hFb.1, detailSessionStep_counts _ s h1 h2, hcongr.1]

/-- C10 counterexample to the unqualified reading: a legacy-shaped active
session (start at 100, no end, no sub-sessions, observed at now = 1000)
is excluded from the session-level fields, but its 900ns of elapsed time
also contributes nothing to TotalWorkDuration or DailyWorkDurations,
because GetStats skips an active legacy session entirely; an active
session carrying an active sub-session does contribute its elapsed
time. -/
theorem C10_counterexample :
    (Storage.GetDetailedStats 1000 0 0
      [(0, ⟨0, [⟨"s1", some ⟨"e1", EntryType.START, 100, "", ""⟩,
        none, [], []⟩]⟩)]).TotalWorkDuration = 0 ∧
    (Storage.GetDetailedStats 1000 0 0
      [(0, ⟨0, [⟨"s1", some ⟨"e1", EntryType.START, 100, "", ""⟩,
        none, [], []⟩]⟩)]).DailyWorkDurations = [(0, 0)] ∧
    (Storage.GetDetailedStats 1000 0 0
      [(0, ⟨0, [⟨"s1", some ⟨"e1", EntryType.START, 100, "", ""⟩,
        none, [], []⟩]⟩)]).TotalSessions = 0 ∧
    (Storage.GetDetailedStats 1000 0 0
      [(0, ⟨0, [⟨"s2", some ⟨"e2", EntryType.START, 100, "", ""⟩, none,
        [⟨some ⟨"e3", EntryType.START, 100, "", ""⟩, none, []⟩],
        []⟩]⟩)]).TotalWorkDuration = 900 := by
  refine ⟨rfl, rfl, rfl, rfl⟩

/-- C10 witness: on a day keyed 7, appending the active legacy session
(start 40, no end) to a day holding one completed session (10..30) at
now = 50 leaves TotalSessions unchanged and grows TotalWorkDuration by
that session's stats work (which is zero); appending the completed
session to an empty day increments TotalSessions. -/
theorem C10_witness :
    (Storage.GetDetailedStats 50 0 0
      [(7, ⟨0, [⟨"a", some ⟨"a1", EntryType.START, 10, "", ""⟩,
          some ⟨"a2", EntryType.END, 30, "", ""⟩, [], []⟩,
        ⟨"b", some ⟨"b1", EntryType.START, 40, "", ""⟩,
          none, [], []⟩]⟩)]).TotalSessions =
      (Storage.GetDetailedStats 50 0 0
        [(7, ⟨0, [⟨"a", some ⟨"a1", EntryType.START, 10, "", ""⟩,
          some ⟨"a2", EntryType.END, 30, "", ""⟩, [], []⟩]⟩)]).TotalSessions ∧
    (Storage.GetDetailedStats 50 0 0
      [(7, ⟨0, [⟨"a", some ⟨"a1", EntryType.START, 10, "", ""⟩,
          some ⟨"a2", EntryType.END, 30, "", ""⟩, [], []⟩,
        ⟨"b", some ⟨"b1", EntryType.START, 40, "", ""⟩,
          none, [], []⟩]⟩)]).TotalWorkDuration =
      (Storage.GetDetailedStats 50 0 0
        [(7, ⟨0, [⟨"a", some ⟨"a1", EntryType.START, 10, "", ""⟩,
          some ⟨"a2", EntryType.END, 30, "", ""⟩, [], []⟩]⟩)]).TotalWorkDuration +
        (Session.stats 50 ⟨"b", some ⟨"b1", EntryType.START, 40, "", ""⟩,
          none, [], []⟩).1 ∧
    (Storage.GetDetailedStats 50 0 0
      [(7, ⟨0, [⟨"a", some ⟨"a1", EntryType.START, 10, "", ""⟩,
        some ⟨"a2", EntryType.END, 30, "", ""⟩, [], []⟩]⟩)]).TotalSessions =
      (Storage.GetDetailedStats 50 0 0
        [(7, ⟨0, ([] : List Session)⟩)]).TotalSessions + 1 := by
  have h := C10_active_session_excluded 50 0 0 7 0
    [⟨"a", some ⟨"a1", EntryType.START, 10, "", ""⟩,
      some ⟨"a2", EntryType.END, 30, "", ""⟩, [], []⟩]
    ⟨"b", some ⟨"b1", EntryType.START, 40, "", ""⟩, none, [], []⟩
  have h2 := (C10_active_session_excluded 50 0 0 7 0 []
    ⟨"a", some ⟨"a1", EntryType.START, 10, "", ""⟩,
      some ⟨"a2", EntryType.END, 30, "", ""⟩, [], []⟩).2 rfl rfl
  exact ⟨(h.1 rfl).1, (h.1 rfl).2.2.2.2.2.2.2.1, h2⟩

end ITracker
